import Mathlib

/-!
Shallow embedding of the Bob language execution engine
(src/src/Value.h, src/src/Environment.h, src/src/Interpreter.h).

Numbers (C++ `double`) are modelled as exact rationals (`Q`); every claim checked here is
independent of floating-point rounding (indices, small integer arithmetic,
comparisons).  `static_cast<int>` is modelled as mathematical truncation
toward zero.  Transcendental built-ins (`sqrt`, `sin`, ...) and the
nondeterministic ones (`random`, `time`, `input`, `thread_id`) perform their
source-level arity/type checks and then yield a `nondet` marker; no claim
touches their numeric results.  The interpreter is fuel-indexed: every
recursive call consumes one fuel unit and `Res.noFuel` marks exhaustion
(an artifact of totality, not of the C++ source).
-/

namespace Bob

/-- Operator tokens from src/src/Token.h that the evaluator dispatches on. -/
inductive TokType where
  | plus | minus | star | slash | percent | starStar
  | plusPlus | minusMinus
  | plusEq | minusEq | starEq | slashEq | percentEq
  | eqEq | bangEq | less | lessEq | greater | greaterEq
  | andT | orT | notT | inT
deriving DecidableEq, Repr

/-- Fuel-driven Euclid (structurally recursive, hence kernel-reducible;
`a + 1` units always suffice). -/
def gcdFuel : Nat → Nat → Nat → Nat
  | 0, _, b => b
  | fuel + 1, a, b => if a = 0 then b else gcdFuel fuel (b % a) a

/-- Greatest common divisor. -/
def myGcd (a b : Nat) : Nat := gcdFuel (a + 1) a b

/-- Exact rational numbers in lowest terms with positive denominator,
standing in for C++ `double`.  (Mathlib's `Rat` arithmetic is defined by
well-founded recursion and does not reduce inside `decide`/`rfl`; this
structurally-recursive copy does.)  Every claim checked in this file is
insensitive to floating-point rounding. -/
structure Q where
  num : Int
  den : Nat
deriving DecidableEq, Repr

/-- Build a `Q` in lowest terms; a zero denominator collapses to 0
(that case is guarded against at every interpreter call site). -/
def mkQ (n : Int) (d : Nat) : Q :=
  if d = 0 then ⟨0, 1⟩
  else
    let g := myGcd n.natAbs d
    ⟨n.tdiv (g : Int), d / g⟩

instance : OfNat Q n := ⟨⟨Int.ofNat n, 1⟩⟩
instance : NatCast Q := ⟨fun n => ⟨Int.ofNat n, 1⟩⟩
instance : IntCast Q := ⟨fun i => ⟨i, 1⟩⟩
instance : Neg Q := ⟨fun x => ⟨-x.num, x.den⟩⟩
instance : Add Q := ⟨fun x y => mkQ (x.num * (y.den : Int) + y.num * (x.den : Int)) (x.den * y.den)⟩
instance : Sub Q := ⟨fun x y => mkQ (x.num * (y.den : Int) - y.num * (x.den : Int)) (x.den * y.den)⟩
instance : Mul Q := ⟨fun x y => mkQ (x.num * y.num) (x.den * y.den)⟩

/-- Multiplicative inverse (0 for 0). -/
def Q.inv (y : Q) : Q :=
  if 0 ≤ y.num then mkQ (y.den : Int) y.num.natAbs
  else mkQ (-(y.den : Int)) y.num.natAbs

instance : Div Q := ⟨fun x y => x * Q.inv y⟩
instance : LT Q := ⟨fun x y => x.num * (y.den : Int) < y.num * (x.den : Int)⟩
instance : LE Q := ⟨fun x y => x.num * (y.den : Int) ≤ y.num * (x.den : Int)⟩
instance (x y : Q) : Decidable (x < y) := Int.decLt _ _
instance (x y : Q) : Decidable (x ≤ y) := Int.decLe _ _

/-- Power with a natural exponent. -/
def Q.npow (x : Q) : Nat → Q
  | 0 => 1
  | n + 1 => x * Q.npow x n

/-- Power with an integer exponent (negative exponents through `inv`). -/
def Q.zpow (x : Q) : Int → Q
  | .ofNat n => Q.npow x n
  | .negSucc n => Q.inv (Q.npow x (n + 1))

/-- Floor (`std::floor`). -/
def Q.floor (q : Q) : Int := q.num.fdiv (q.den : Int)

/-- Ceiling (`std::ceil`). -/
def Q.ceil (q : Q) : Int := -((-q.num).fdiv (q.den : Int))

/-- Absolute value (`std::abs`). -/
def Q.abs (q : Q) : Q := ⟨q.num.natAbs, q.den⟩

/-- Runtime value (src/src/Value.h).  The snapshot's Value.h declares
`std::string stringValue` / `std::vector<Value> arrayValue` by value, but
every use site in src/src/Interpreter.h dereferences them as shared handles
(`args[0].arrayValue->push_back(...)`, `*args[0].stringValue`).  Modelled
from the spec: `String` and `Array` (and `Function`, a `shared_ptr`) carry
a handle into a heap held in the interpreter state, giving the shared
mutable identity of spec section 3. -/
inductive Value where
  | nil
  | boolV (b : Bool)
  | num (q : Q)
  | str (h : Nat)
  | arr (h : Nat)
  | func (h : Nat)
deriving DecidableEq, Repr

/-- Expression nodes (src/src/AST.h as consumed by Interpreter.h). -/
inductive Expr where
  | literalExpr (v : Value)
  | variableExpr (name : String)
  | assignmentExpr (name : String) (value : Expr)
  | compoundAssignExpr (name : String) (op : TokType) (value : Expr)
  | postfixExpr (name : String) (op : TokType)
  | groupingExpr (e : Expr)
  | binaryExpr (left : Expr) (op : TokType) (right : Expr)
  | unaryExpr (op : TokType) (right : Expr)
  | arrayExpr (elements : List Expr)
  | indexExpr (array : Expr) (index : Expr)
  | indexAssignExpr (array : Expr) (index : Expr) (value : Expr)
  | callExpr (callee : Expr) (arguments : List Expr)

/-- Statement nodes.  `parallelStmt` follows the shape constructed by
src/src/Parser.h (`ParallelStmt(initializer, condition, increment, body)`)
and dispatched on by Interpreter.h; nullable pointers are `Option`s.
(The field called `initializer` in the C++ source is named `initStmt`
here.) -/
inductive Stmt where
  | exprStmt (e : Expr)
  | varStmt (name : String) (initExpr : Option Expr)
  | blockStmt (statements : List Stmt)
  | ifStmt (condition : Expr) (thenBranch : Stmt) (elseBranch : Option Stmt)
  | whileStmt (condition : Expr) (body : Stmt)
  | parallelStmt (initStmt : Option Stmt) (condition : Option Expr)
      (increment : Option Expr) (body : Stmt)
  | functionStmt (name : String) (params : List String) (body : List Stmt)
  | returnStmt (value : Option Expr)

/-- A Function value (src/src/Callable.h): parameters, body, captured
closure environment (a handle). -/
structure FuncData where
  params : List String
  body : List Stmt
  closure : Nat

/-- One Environment (src/src/Environment.h): optional enclosing scope and
the name-to-value table (std::map modelled as an association list;
insertion order is irrelevant per the spec). -/
structure EnvData where
  parent : Option Nat
  table : List (String × Value)
deriving DecidableEq

/-- Interpreter state: the environment heap, the shared string/array
heaps backing Value handles, the function heap, the process-wide
AtomicRegistry (`Interpreter::atomicVars`), the `globals` pointer, the
current `environment` pointer, the print log, and `numThreads`. -/
structure St where
  envs : List EnvData
  arraysH : List (List Value)
  stringsH : List (List Char)
  funcsH : List FuncData
  atomics : List (String × Q)
  globalsId : Nat
  envId : Nat
  outputLog : List (List Char)
  numThreads : Nat

/-- Non-local transfers: `rte` is a C++ RuntimeError/runtime_error with its
message; `retv` is ReturnException; `ub` marks C++ undefined behaviour
(null-handle dereference); `nondet` marks the nondeterministic built-ins
whose results the embedding does not model. -/
inductive Exc where
  | rte (msg : String)
  | retv (v : Value)
  | ub (msg : String)
  | nondet (msg : String)
deriving DecidableEq

/-- Result of a fuel-indexed computation. -/
inductive Res (α : Type) where
  | ok (a : α)
  | thrown (e : Exc)
  | noFuel
deriving DecidableEq

/-- Association-list lookup (std::map::find). -/
def lookupTbl {α : Type} : List (String × α) → String → Option α
  | [], _ => none
  | (k, v) :: rest, n => if k = n then some v else lookupTbl rest n

/-- Association-list insert-or-assign (std::map operator[] =). -/
def setTbl {α : Type} : List (String × α) → String → α → List (String × α)
  | [], n, v => [(n, v)]
  | (k, w) :: rest, n, v =>
    if k = n then (k, v) :: rest else (k, w) :: setTbl rest n v

/-- Truncation toward zero, the semantics of C++ `static_cast<int>` on a
(finite, in-range) double. -/
def truncQ (q : Q) : Int := q.num.tdiv (q.den : Int)

/-- Allocate a fresh Environment chained to `parent`
(std::make_shared<Environment>(parent)); returns its handle. -/
def allocEnv (st : St) (parent : Option Nat) : Nat × St :=
  (st.envs.length, { st with envs := st.envs ++ [⟨parent, []⟩] })

/-- Allocate a fresh shared array. -/
def allocArr (st : St) (vs : List Value) : Nat × St :=
  (st.arraysH.length, { st with arraysH := st.arraysH ++ [vs] })

/-- Allocate a fresh shared string. -/
def allocStr (st : St) (cs : List Char) : Nat × St :=
  (st.stringsH.length, { st with stringsH := st.stringsH ++ [cs] })

/-- Allocate a fresh Function. -/
def allocFunc (st : St) (fd : FuncData) : Nat × St :=
  (st.funcsH.length, { st with funcsH := st.funcsH ++ [fd] })

/-- Environment::define — writes into the named scope's own table. -/
def envDefine (st : St) (id : Nat) (n : String) (v : Value) : St :=
  match st.envs[id]? with
  | none => st
  | some e => { st with envs := st.envs.set id { e with table := setTbl e.table n v } }

/-- Environment::get, walking the enclosing chain.  The fuel argument is a
totality artifact; `id + 1` units always suffice on well-formed (acyclic,
parent-index-decreasing) chains, which are the only ones the interpreter
builds. -/
def envGetAux : Nat → List EnvData → Nat → String → Res Value
  | 0, _, _, _ => .noFuel
  | fuel + 1, envs, id, n =>
    match envs[id]? with
    | none => .thrown (.ub "dangling environment handle")
    | some e =>
      match lookupTbl e.table n with
      | some v => .ok v
      | none =>
        match e.parent with
        | some p => envGetAux fuel envs p n
        | none => .thrown (.rte ("Undefined variable \x27" ++ n ++ "\x27"))

/-- Environment::get from scope `id`. -/
def envGet (st : St) (id : Nat) (n : String) : Res Value :=
  envGetAux (id + 1) st.envs id n

/-- Environment::assign, walking the enclosing chain; never creates a
binding — throws if the name is found nowhere. -/
def envAssignAux : Nat → List EnvData → Nat → String → Value →
    Res Unit × List EnvData
  | 0, envs, _, _, _ => (.noFuel, envs)
  | fuel + 1, envs, id, n, v =>
    match envs[id]? with
    | none => (.thrown (.ub "dangling environment handle"), envs)
    | some e =>
      match lookupTbl e.table n with
      | some _ => (.ok (), envs.set id { e with table := setTbl e.table n v })
      | none =>
        match e.parent with
        | some p => envAssignAux fuel envs p n v
        | none => (.thrown (.rte ("Undefined variable \x27" ++ n ++ "\x27")), envs)

/-- Environment::assign from scope `id`. -/
def envAssign (st : St) (id : Nat) (n : String) (v : Value) : Res Unit × St :=
  match envAssignAux (id + 1) st.envs id n v with
  | (r, envs') => (r, { st with envs := envs' })

/-- Index of the nearest (innermost) scope in the chain from `id` whose own
table binds `n` (specification device for the assign/get contracts). -/
def chainFindAux : Nat → List EnvData → Nat → String → Option Nat
  | 0, _, _, _ => none
  | fuel + 1, envs, id, n =>
    match envs[id]? with
    | none => none
    | some e =>
      match lookupTbl e.table n with
      | some _ => some id
      | none =>
        match e.parent with
        | some p => chainFindAux fuel envs p n
        | none => none

/-- Nearest scope binding `n`, starting from `id`. -/
def chainFind (st : St) (id : Nat) (n : String) : Option Nat :=
  chainFindAux (id + 1) st.envs id n

/-- Scope-chain well-formedness: every parent link points to a
strictly smaller heap index.  This holds for every state the interpreter
builds (children are allocated after, hence above, their parents). -/
def wfFrom : Nat → List EnvData → Bool
  | _, [] => true
  | i, e :: rest =>
    (match e.parent with
     | none => true
     | some p => decide (p < i)) && wfFrom (i + 1) rest

/-- Well-formed environment heap. -/
abbrev wfEnvs (envs : List EnvData) : Prop := wfFrom 0 envs = true

/-- Kind test: Number. -/
def Value.isNum : Value → Bool
  | .num _ => true
  | _ => false

/-- Kind test: String. -/
def Value.isStr : Value → Bool
  | .str _ => true
  | _ => false

/-- Kind test: Array. -/
def Value.isArr : Value → Bool
  | .arr _ => true
  | _ => false

/-- The `numberValue` field of a Value.  The C++ constructor zero-initialises
it and the non-Number factories never touch it, so reading it from a
non-Number value yields 0. -/
def Value.getNumD : Value → Q
  | .num q => q
  | _ => 0

/-- The String handle of a Value (guarded by `isStr` at every use site). -/
def Value.getStrHD : Value → Nat
  | .str h => h
  | _ => 0

/-- The Array handle of a Value (guarded by `isArr` at every use site). -/
def Value.getArrHD : Value → Nat
  | .arr h => h
  | _ => 0

/-- Contents of a shared string (`*stringValue`); defaults to empty for a
dangling handle, which the interpreter never creates. -/
def strContentD (st : St) (h : Nat) : List Char := (st.stringsH[h]?).getD []

/-- Contents of a shared array (`*arrayValue`). -/
def arrContentD (st : St) (h : Nat) : List Value := (st.arraysH[h]?).getD []

/-- Value::isTruthy (src/src/Value.h).  String/Array emptiness reads the
shared buffer, hence the state argument. -/
def isTruthy (st : St) : Value → Bool
  | .nil => false
  | .boolV b => b
  | .num q => q != 0
  | .str h => !(strContentD st h).isEmpty
  | .arr h => !(arrContentD st h).isEmpty
  | .func _ => true

/-- Value::isEqual (src/src/Value.h): kind mismatch is false; Array compares
by length only; Function by reference (handle) identity. -/
def isEqual (st : St) : Value → Value → Bool
  | .nil, .nil => true
  | .boolV a, .boolV b => a == b
  | .num a, .num b => a == b
  | .str a, .str b => strContentD st a == strContentD st b
  | .arr a, .arr b => (arrContentD st a).length == (arrContentD st b).length
  | .func a, .func b => a == b
  | _, _ => false

/-- Decimal digits of a natural number, most significant first. -/
def natToCharsAux : Nat → Nat → List Char → List Char
  | 0, _, acc => acc
  | fuel + 1, n, acc =>
    if n = 0 then acc
    else natToCharsAux fuel (n / 10) (Char.ofNat (48 + n % 10) :: acc)

/-- Decimal rendering of an integer. -/
def intToChars (i : Int) : List Char :=
  if i = 0 then ['0']
  else if i < 0 then '-' :: natToCharsAux (i.natAbs + 1) i.natAbs []
  else natToCharsAux (i.natAbs + 1) i.natAbs []

/-- Rendering of a Number (`std::stringstream << double`).  Faithful for
integral values below 10^6 (the stream's 6-significant-digit default);
larger or non-integral doubles use scientific/rounded notation that this
embedding does not reproduce (marker text instead — no claim depends on
it). -/
def numToChars (q : Q) : List Char :=
  if q.den = 1 ∧ q.num.natAbs < 1000000 then intToChars q.num
  else "<double-format>".data

mutual

/-- Value::toString (src/src/Value.h).  Recursion through shared Array
buffers needs fuel: a self-referential array (push(a, a)) makes the C++
version recurse forever; `none` marks that divergence. -/
def toStringF : Nat → St → Value → Option (List Char)
  | 0, _, _ => none
  | fuel + 1, st, v =>
    match v with
    | .nil => some "nil".data
    | .boolV b => some (if b then "true".data else "false".data)
    | .num q => some (numToChars q)
    | .str h =>
      match st.stringsH[h]? with
      | none => none
      | some cs => some cs
    | .arr h =>
      match st.arraysH[h]? with
      | none => none
      | some elems =>
        match toStringListF fuel st elems with
        | none => none
        | some parts => some ('[' :: List.intercalate ", ".data parts ++ [']'])
    | .func _ => some "<function>".data

/-- toString of each array element in order. -/
def toStringListF : Nat → St → List Value → Option (List (List Char))
  | 0, _, _ => none
  | _ + 1, _, [] => some []
  | fuel + 1, st, v :: rest =>
    match toStringF fuel st v with
    | none => none
    | some cs =>
      match toStringListF fuel st rest with
      | none => none
      | some css => some (cs :: css)

end

/-- Prefix test for character lists. -/
def listStartsWith : List Char → List Char → Bool
  | [], _ => true
  | _ :: _, [] => false
  | c :: cs, d :: ds => c == d && listStartsWith cs ds

/-- Substring test (`std::string::find(needle) != npos`): does the second
list contain the first? -/
def listContains (needle : List Char) : List Char → Bool
  | [] => needle.isEmpty
  | d :: ds => listStartsWith needle (d :: ds) || listContains needle ds

/-- Value::applyUnaryOp (src/src/Value.h). -/
def applyUnaryOp (st : St) (op : TokType) (v : Value) : Res Value :=
  match op with
  | .minus =>
    match v with
    | .num q => .ok (.num (-q))
    | _ => .thrown (.rte "Unary \x27-\x27 requires a number")
  | .notT => .ok (.boolV (!isTruthy st v))
  | _ => .thrown (.rte "Unsupported unary operator")

/-- C++ std::fmod on (finite) doubles: `x - trunc(x/y)*y`, exact on
rationals. -/
def fmodQ (x y : Q) : Q := x - ((truncQ (x / y) : Int) : Q) * y

/-- The both-operands-Number table of Value::applyBinaryOp.  `**` with a
non-integral exponent is floating-point (`std::pow`) and yields the
`nondet` marker; with an integral exponent it is the exact power (the one
divergence: C++ pow(0, negative) is inf, while zpow gives 0 — no claim
touches it). -/
def numericBinOp (op : TokType) (x y : Q) : Res Value :=
  match op with
  | .plus => .ok (.num (x + y))
  | .minus => .ok (.num (x - y))
  | .star => .ok (.num (x * y))
  | .slash => if y = 0 then .thrown (.rte "Division by zero") else .ok (.num (x / y))
  | .percent => if y = 0 then .thrown (.rte "Modulo by zero") else .ok (.num (fmodQ x y))
  | .starStar =>
    if y.den = 1 then .ok (.num (Q.zpow x y.num)) else .thrown (.nondet "pow")
  | .greater => .ok (.boolV (decide (x > y)))
  | .greaterEq => .ok (.boolV (decide (x ≥ y)))
  | .less => .ok (.boolV (decide (x < y)))
  | .lessEq => .ok (.boolV (decide (x ≤ y)))
  | .eqEq => .ok (.boolV (x == y))
  | .bangEq => .ok (.boolV (x != y))
  | _ => .thrown (.rte "Unsupported number operation")

/-- Value::applyBinaryOp (src/src/Value.h), with the source's if-cascade
order kept exactly; allocation of result strings mutates the state. -/
def applyBinaryOp (fuel : Nat) (op : TokType) (a b : Value) (st : St) :
    Res Value × St :=
  if a.isNum ∧ b.isNum then
    (numericBinOp op a.getNumD b.getNumD, st)
  else if a.isStr ∧ b.isNum ∧ op = .star then
    let count := truncQ b.getNumD
    let (h, st1) := allocStr st
      (List.flatten (List.replicate count.toNat (strContentD st a.getStrHD)))
    (.ok (.str h), st1)
  else if a.isStr ∧ op = .plus then
    match toStringF fuel st b with
    | none => (.thrown (.ub "nonterminating toString"), st)
    | some cs =>
      let (h, st1) := allocStr st (strContentD st a.getStrHD ++ cs)
      (.ok (.str h), st1)
  else if ¬ a.isStr ∧ b.isStr ∧ op = .plus then
    match toStringF fuel st a with
    | none => (.thrown (.ub "nonterminating toString"), st)
    | some cs =>
      let (h, st1) := allocStr st (cs ++ strContentD st b.getStrHD)
      (.ok (.str h), st1)
  else if a.isStr ∧ b.isStr then
    if op = .eqEq then
      (.ok (.boolV (strContentD st a.getStrHD == strContentD st b.getStrHD)), st)
    else if op = .bangEq then
      (.ok (.boolV (strContentD st a.getStrHD != strContentD st b.getStrHD)), st)
    else if op = .inT then
      (.ok (.boolV (listContains (strContentD st a.getStrHD)
        (strContentD st b.getStrHD))), st)
    else (.thrown (.rte "Unsupported string operation"), st)
  else if b.isArr ∧ op = .inT then
    (.ok (.boolV ((arrContentD st b.getArrHD).any (fun el => isEqual st a el))), st)
  else if op = .eqEq then
    if a.isStr ∧ ¬ b.isStr then
      match toStringF fuel st b with
      | none => (.thrown (.ub "nonterminating toString"), st)
      | some cs => (.ok (.boolV (strContentD st a.getStrHD == cs)), st)
    else if ¬ a.isStr ∧ b.isStr then
      match toStringF fuel st a with
      | none => (.thrown (.ub "nonterminating toString"), st)
      | some cs => (.ok (.boolV (cs == strContentD st b.getStrHD)), st)
    else (.ok (.boolV (isEqual st a b)), st)
  else if op = .bangEq then
    if a.isStr ∧ ¬ b.isStr then
      match toStringF fuel st b with
      | none => (.thrown (.ub "nonterminating toString"), st)
      | some cs => (.ok (.boolV (strContentD st a.getStrHD != cs)), st)
    else if ¬ a.isStr ∧ b.isStr then
      match toStringF fuel st a with
      | none => (.thrown (.ub "nonterminating toString"), st)
      | some cs => (.ok (.boolV (cs != strContentD st b.getStrHD)), st)
    else (.ok (.boolV (!isEqual st a b)), st)
  else (.thrown (.rte "Unsupported binary operation"), st)

/-- The IndexExpr arm of Interpreter::evaluateExpr after both
subexpressions are evaluated: the index is cast to int (truncation toward
zero), then adjusted by the length if negative, then bounds-checked.
Indexing a String allocates a fresh single-character String. -/
def indexRead (st : St) (target idxv : Value) : Res Value × St :=
  match idxv with
  | .num q =>
    let i := truncQ q
    match target with
    | .str h =>
      match st.stringsH[h]? with
      | none => (.thrown (.ub "null stringValue"), st)
      | some cs =>
        let size : Int := cs.length
        let i1 := if i < 0 then size + i else i
        if i1 < 0 ∨ size ≤ i1 then
          (.thrown (.rte "String index out of bounds"), st)
        else
          let (nh, st1) := allocStr st [(cs[i1.toNat]?).getD (Char.ofNat 0)]
          (.ok (.str nh), st1)
    | .arr h =>
      match st.arraysH[h]? with
      | none => (.thrown (.ub "null arrayValue"), st)
      | some elems =>
        let size : Int := elems.length
        let i1 := if i < 0 then size + i else i
        if i1 < 0 ∨ size ≤ i1 then
          (.thrown (.rte "Array index out of bounds"), st)
        else (.ok ((elems[i1.toNat]?).getD .nil), st)
    | _ => (.thrown (.rte "Cannot index non-array/string value"), st)
  | _ => (.thrown (.rte "Index must be a number"), st)

/-- The IndexAssignExpr arm after the three subexpressions are evaluated.
A String write stores the first character of the new value's string
rendering (`newVal.toString()[0]`; empty rendering reads the terminating
null character) into the shared buffer; an Array write stores the value.
Returns the assigned value. -/
def indexWrite (fuel : Nat) (st : St) (target idxv newVal : Value) :
    Res Value × St :=
  match idxv with
  | .num q =>
    let i := truncQ q
    match target with
    | .str h =>
      match st.stringsH[h]? with
      | none => (.thrown (.ub "null stringValue"), st)
      | some cs =>
        let size : Int := cs.length
        let i1 := if i < 0 then size + i else i
        if i1 < 0 ∨ size ≤ i1 then
          (.thrown (.rte "String index out of bounds"), st)
        else
          match toStringF fuel st newVal with
          | none => (.thrown (.ub "nonterminating toString"), st)
          | some rend =>
            let c := rend.headD (Char.ofNat 0)
            (.ok newVal, { st with stringsH := st.stringsH.set h (cs.set i1.toNat c) })
    | .arr h =>
      match st.arraysH[h]? with
      | none => (.thrown (.ub "null arrayValue"), st)
      | some elems =>
        let size : Int := elems.length
        let i1 := if i < 0 then size + i else i
        if i1 < 0 ∨ size ≤ i1 then
          (.thrown (.rte "Array index out of bounds"), st)
        else (.ok newVal, { st with arraysH := st.arraysH.set h (elems.set i1.toNat newVal) })
    | _ => (.thrown (.rte "Cannot index assign to non-array value"), st)
  | _ => (.thrown (.rte "Index must be a number"), st)

/-- The names seeded into the built-in table by
Interpreter::initializeBuiltins, in source order. -/
def builtinNames : List String :=
  ["print", "len", "input", "sqrt", "pow", "abs", "floor", "ceil", "round",
   "sin", "cos", "tan", "log", "random", "time", "thread_id", "num_threads",
   "sleep", "atomic_store", "atomic_load", "atomic_add", "atomic_sub",
   "atomic_inc", "atomic_dec", "atomic_xchg", "atomic_cas", "push", "pop"]

/-- Current value of an atomic register, with std::map operator[]'s
default of 0. -/
def regLookupD (st : St) (n : String) : Q := (lookupTbl st.atomics n).getD 0

/-- `*args[i].stringValue` — the name argument of an atomic built-in;
`none` is the null-handle (undefined behaviour) case. -/
def strNameOf (st : St) (v : Value) : Option String :=
  match v with
  | .str h => (st.stringsH[h]?).map (fun cs => String.mk cs)
  | _ => none

/-- `print`'s rendering: arguments joined by single spaces. -/
def printRender (fuel : Nat) (st : St) : List Value → Option (List Char)
  | [] => some []
  | [v] => toStringF fuel st v
  | v :: rest =>
    match toStringF fuel st v with
    | none => none
    | some cs =>
      match printRender fuel st rest with
      | none => none
      | some rs => some (cs ++ ' ' :: rs)

/-- `args[i].numberValue` (zero for a non-Number argument, per the
constructor default). -/
def numberArg (args : List Value) (i : Nat) : Q := ((args[i]?).getD Value.nil).getNumD

/-- Common tail of the read-modify-write atomic built-ins: under the one
global lock, the register is set to `r` first and then mirrored into the
global Scope with Environment::assign.  If the mirror write throws
(name unbound in the global Scope), the register mutation persists —
exceptions do not roll back state. -/
def atomicRmw (st : St) (vn : String) (r : Q) : Res Value × St :=
  let st1 := { st with atomics := setTbl st.atomics vn r }
  match envAssign st1 st1.globalsId vn (.num r) with
  | (.ok _, st2) => (.ok (.num r), st2)
  | (.thrown exc, st2) => (.thrown exc, st2)
  | (.noFuel, st2) => (.noFuel, st2)

/-- The one-number-argument arity/type guard shared by the math built-ins. -/
def oneNumArg (args : List Value) (arityMsg typeMsg : String) : Option (Q × String) :=
  if args.length ≠ 1 then some (0, arityMsg)
  else if !(args.headD .nil).isNum then some (0, typeMsg)
  else none

/-- The native built-in table (Interpreter::initializeBuiltins).  Each
entry re-does its own source-level arity/type checks.  `random`, `time`,
`input`, `thread_id` and the transcendental math functions pass their
checks and then yield the `nondet` marker (their numeric/IO results are
outside this deterministic embedding); every claim under check concerns
the other entries, which are modelled exactly. -/
def callBuiltin (fuel : Nat) (n : String) (args : List Value) (st : St) :
    Res Value × St :=
  match n with
  | "print" =>
    match printRender fuel st args with
    | none => (.thrown (.ub "nonterminating toString"), st)
    | some cs => (.ok .nil, { st with outputLog := st.outputLog ++ [cs] })
  | "len" =>
    if args.length ≠ 1 then (.thrown (.rte "len() expects exactly 1 argument"), st)
    else
      match args.headD .nil with
      | .arr h =>
        match st.arraysH[h]? with
        | none => (.thrown (.ub "null arrayValue"), st)
        | some vs => (.ok (.num (vs.length : Q)), st)
      | .str h =>
        match st.stringsH[h]? with
        | none => (.thrown (.ub "null stringValue"), st)
        | some cs => (.ok (.num (cs.length : Q)), st)
      | _ => (.thrown (.rte "len() expects array or string"), st)
  | "input" =>
    if args.length > 1 then (.thrown (.rte "input() expects 0 or 1 arguments"), st)
    else (.thrown (.nondet "input"), st)
  | "sqrt" =>
    match oneNumArg args "sqrt() expects 1 argument" "sqrt() expects a number" with
    | some (_, msg) => (.thrown (.rte msg), st)
    | none => (.thrown (.nondet "sqrt"), st)
  | "pow" =>
    if args.length ≠ 2 then (.thrown (.rte "pow() expects 2 arguments"), st)
    else if !(args.headD .nil).isNum then (.thrown (.rte "pow() expects numbers"), st)
    else if !((args[1]?).getD Value.nil).isNum then (.thrown (.rte "pow() expects numbers"), st)
    else
      let x := (args.headD .nil).getNumD
      let y := ((args[1]?).getD Value.nil).getNumD
      if y.den = 1 then (.ok (.num (Q.zpow x y.num)), st) else (.thrown (.nondet "pow"), st)
  | "abs" =>
    match oneNumArg args "abs() expects 1 argument" "abs() expects a number" with
    | some (_, msg) => (.thrown (.rte msg), st)
    | none => (.ok (.num (Q.abs (args.headD .nil).getNumD)), st)
  | "floor" =>
    match oneNumArg args "floor() expects 1 argument" "floor() expects a number" with
    | some (_, msg) => (.thrown (.rte msg), st)
    | none => (.ok (.num ((((args.headD .nil).getNumD).floor : Int) : Q)), st)
  | "ceil" =>
    match oneNumArg args "ceil() expects 1 argument" "ceil() expects a number" with
    | some (_, msg) => (.thrown (.rte msg), st)
    | none => (.ok (.num ((((args.headD .nil).getNumD).ceil : Int) : Q)), st)
  | "round" =>
    match oneNumArg args "round() expects 1 argument" "round() expects a number" with
    | some (_, msg) => (.thrown (.rte msg), st)
    | none =>
      let q := (args.headD .nil).getNumD
      let r : Int := if 0 ≤ q then (q + mkQ 1 2).floor else (q - mkQ 1 2).ceil
      (.ok (.num (r : Q)), st)
  | "sin" =>
    match oneNumArg args "sin() expects 1 argument" "sin() expects a number" with
    | some (_, msg) => (.thrown (.rte msg), st)
    | none => (.thrown (.nondet "sin"), st)
  | "cos" =>
    match oneNumArg args "cos() expects 1 argument" "cos() expects a number" with
    | some (_, msg) => (.thrown (.rte msg), st)
    | none => (.thrown (.nondet "cos"), st)
  | "tan" =>
    match oneNumArg args "tan() expects 1 argument" "tan() expects a number" with
    | some (_, msg) => (.thrown (.rte msg), st)
    | none => (.thrown (.nondet "tan"), st)
  | "log" =>
    match oneNumArg args "log() expects 1 argument" "log() expects a number" with
    | some (_, msg) => (.thrown (.rte msg), st)
    | none => (.thrown (.nondet "log"), st)
  | "random" => (.thrown (.nondet "random"), st)
  | "time" => (.thrown (.nondet "time"), st)
  | "thread_id" => (.thrown (.nondet "thread_id"), st)
  | "num_threads" => (.ok (.num (st.numThreads : Q)), st)
  | "sleep" =>
    if args.length ≠ 1 ∨ !(args.headD .nil).isNum then
      (.thrown (.rte "sleep() expects 1 number argument (ms)"), st)
    else (.ok .nil, st)
  | "atomic_store" =>
    if args.length ≠ 2 then (.thrown (.rte "atomic_store(var_name, val)"), st)
    else
      match strNameOf st (args.headD .nil) with
      | none => (.thrown (.ub "null stringValue"), st)
      | some vn =>
        let val := numberArg args 1
        let st1 := { st with atomics := setTbl st.atomics vn val }
        (.ok .nil, envDefine st1 st1.globalsId vn (.num val))
  | "atomic_load" =>
    if args.length ≠ 1 then (.thrown (.rte "atomic_load(var_name)"), st)
    else
      match strNameOf st (args.headD .nil) with
      | none => (.thrown (.ub "null stringValue"), st)
      | some vn =>
        match lookupTbl st.atomics vn with
        | none => (.ok (.num 0), st)
        | some q => (.ok (.num q), st)
  | "atomic_add" =>
    if args.length ≠ 2 then (.thrown (.rte "atomic_add(var_name, val)"), st)
    else
      match strNameOf st (args.headD .nil) with
      | none => (.thrown (.ub "null stringValue"), st)
      | some vn => atomicRmw st vn (regLookupD st vn + numberArg args 1)
  | "atomic_sub" =>
    if args.length ≠ 2 then (.thrown (.rte "atomic_sub(var_name, val)"), st)
    else
      match strNameOf st (args.headD .nil) with
      | none => (.thrown (.ub "null stringValue"), st)
      | some vn => atomicRmw st vn (regLookupD st vn - numberArg args 1)
  | "atomic_inc" =>
    if args.length ≠ 1 then (.thrown (.rte "atomic_inc(var_name)"), st)
    else
      match strNameOf st (args.headD .nil) with
      | none => (.thrown (.ub "null stringValue"), st)
      | some vn => atomicRmw st vn (regLookupD st vn + 1)
  | "atomic_dec" =>
    if args.length ≠ 1 then (.thrown (.rte "atomic_dec(var_name)"), st)
    else
      match strNameOf st (args.headD .nil) with
      | none => (.thrown (.ub "null stringValue"), st)
      | some vn => atomicRmw st vn (regLookupD st vn - 1)
  | "atomic_xchg" =>
    if args.length ≠ 2 then (.thrown (.rte "atomic_xchg(var_name, new_val)"), st)
    else
      match strNameOf st (args.headD .nil) with
      | none => (.thrown (.ub "null stringValue"), st)
      | some vn =>
        let newVal := numberArg args 1
        let oldVal := regLookupD st vn
        let st1 := { st with atomics := setTbl st.atomics vn newVal }
        match envAssign st1 st1.globalsId vn (.num newVal) with
        | (.ok _, st2) => (.ok (.num oldVal), st2)
        | (.thrown exc, st2) => (.thrown exc, st2)
        | (.noFuel, st2) => (.noFuel, st2)
  | "atomic_cas" =>
    if args.length ≠ 3 then
      (.thrown (.rte "atomic_cas(var_name, expected, new_val)"), st)
    else
      match strNameOf st (args.headD .nil) with
      | none => (.thrown (.ub "null stringValue"), st)
      | some vn =>
        let expected := numberArg args 1
        let newVal := numberArg args 2
        let cur := regLookupD st vn
        let st1 := { st with atomics := setTbl st.atomics vn cur }
        if cur = expected then
          let st2 := { st1 with atomics := setTbl st1.atomics vn newVal }
          match envAssign st2 st2.globalsId vn (.num newVal) with
          | (.ok _, st3) => (.ok (.boolV true), st3)
          | (.thrown exc, st3) => (.thrown exc, st3)
          | (.noFuel, st3) => (.noFuel, st3)
        else (.ok (.boolV false), st1)
  | "push" =>
    if args.length ≠ 2 then
      (.thrown (.rte "push() expects 2 arguments: array and value"), st)
    else
      match args.headD .nil with
      | .arr h =>
        match st.arraysH[h]? with
        | none => (.thrown (.ub "null arrayValue"), st)
        | some vs =>
          (.ok .nil, { st with arraysH := st.arraysH.set h (vs ++ [(args[1]?).getD Value.nil]) })
      | _ => (.thrown (.rte "First argument must be an array"), st)
  | "pop" =>
    if args.length ≠ 1 then (.thrown (.rte "pop() expects 1 argument: array"), st)
    else
      match args.headD .nil with
      | .arr h =>
        match st.arraysH[h]? with
        | none => (.thrown (.ub "null arrayValue"), st)
        | some vs =>
          if vs.isEmpty then (.thrown (.rte "Cannot pop from empty array"), st)
          else (.ok ((vs.getLast?).getD .nil),
                { st with arraysH := st.arraysH.set h vs.dropLast })
      | _ => (.thrown (.rte "Argument must be an array"), st)
  | _ => (.thrown (.ub "not a builtin"), st)

/-- The base binary operator re-derived from a compound-assignment token
(`+=` to `+`, etc.); `none` is the "Unknown compound operator" case. -/
def compoundBaseOp : TokType → Option TokType
  | .plusEq => some .plus
  | .minusEq => some .minus
  | .starEq => some .star
  | .slashEq => some .slash
  | .percentEq => some .percent
  | _ => none

/-- Bind parameters to arguments in the fresh call environment
(the arity was checked to match). -/
def defineParams (id : Nat) : List String → List Value → St → St
  | [], _, st => st
  | _ :: _, [], st => st
  | p :: ps, v :: vs, st => defineParams id ps vs (envDefine st id p v)

mutual

/-- Interpreter::evaluateExpr (src/src/Interpreter.h), fuel-indexed.
Exceptions carry the mutated state with them (C++ exceptions do not roll
back heap or environment writes). -/
def evalExpr : Nat → Expr → St → Res Value × St
  | 0, _, st => (.noFuel, st)
  | fuel + 1, e, st =>
    match e with
    | .literalExpr v => (.ok v, st)
    | .variableExpr nm =>
      match envGet st st.envId nm with
      | .ok v => (.ok v, st)
      | .thrown (.rte _) =>
        (.thrown (.rte ("Variable \x27" ++ nm ++ "\x27 is not defined")), st)
      | .thrown exc => (.thrown exc, st)
      | .noFuel => (.noFuel, st)
    | .assignmentExpr nm vE =>
      match evalExpr fuel vE st with
      | (.ok v, st1) =>
        match envAssign st1 st1.envId nm v with
        | (.ok _, st2) => (.ok v, st2)
        | (.thrown (.rte _), st2) =>
          (.thrown (.rte ("Cannot assign to undefined variable \x27" ++ nm ++ "\x27")), st2)
        | (.thrown exc, st2) => (.thrown exc, st2)
        | (.noFuel, st2) => (.noFuel, st2)
      | (.thrown exc, st1) => (.thrown exc, st1)
      | (.noFuel, st1) => (.noFuel, st1)
    | .compoundAssignExpr nm op vE =>
      match envGet st st.envId nm with
      | .thrown (.rte _) =>
        (.thrown (.rte ("Cannot compound assign to undefined variable \x27" ++ nm ++ "\x27")), st)
      | .thrown exc => (.thrown exc, st)
      | .noFuel => (.noFuel, st)
      | .ok currentVal =>
        match evalExpr fuel vE st with
        | (.ok rightVal, st1) =>
          match compoundBaseOp op with
          | none => (.thrown (.rte "Unknown compound operator"), st1)
          | some baseOp =>
            match applyBinaryOp fuel baseOp currentVal rightVal st1 with
            | (.ok newVal, st2) =>
              match envAssign st2 st2.envId nm newVal with
              | (.ok _, st3) => (.ok newVal, st3)
              | (.thrown exc, st3) => (.thrown exc, st3)
              | (.noFuel, st3) => (.noFuel, st3)
            | (.thrown exc, st2) => (.thrown exc, st2)
            | (.noFuel, st2) => (.noFuel, st2)
        | (.thrown exc, st1) => (.thrown exc, st1)
        | (.noFuel, st1) => (.noFuel, st1)
    | .postfixExpr nm op =>
      match envGet st st.envId nm with
      | .thrown (.rte _) =>
        (.thrown (.rte ("Cannot apply postfix to undefined variable \x27" ++ nm ++ "\x27")), st)
      | .thrown exc => (.thrown exc, st)
      | .noFuel => (.noFuel, st)
      | .ok currentVal =>
        match currentVal with
        | .num q =>
          match (match op with
                 | .plusPlus => some (q + 1)
                 | .minusMinus => some (q - 1)
                 | _ => none) with
          | none => (.thrown (.rte "Unknown postfix operator"), st)
          | some newQ =>
            match envAssign st st.envId nm (.num newQ) with
            | (.ok _, st1) => (.ok (.num q), st1)
            | (.thrown exc, st1) => (.thrown exc, st1)
            | (.noFuel, st1) => (.noFuel, st1)
        | _ => (.thrown (.rte "Postfix operators require a number"), st)
    | .binaryExpr l op r =>
      match op with
      | .andT =>
        match evalExpr fuel l st with
        | (.ok lv, st1) =>
          if isTruthy st1 lv then
            match evalExpr fuel r st1 with
            | (.ok rv, st2) => (.ok (.boolV (isTruthy st2 rv)), st2)
            | (.thrown exc, st2) => (.thrown exc, st2)
            | (.noFuel, st2) => (.noFuel, st2)
          else (.ok (.boolV false), st1)
        | (.thrown exc, st1) => (.thrown exc, st1)
        | (.noFuel, st1) => (.noFuel, st1)
      | .orT =>
        match evalExpr fuel l st with
        | (.ok lv, st1) =>
          if isTruthy st1 lv then (.ok (.boolV true), st1)
          else
            match evalExpr fuel r st1 with
            | (.ok rv, st2) => (.ok (.boolV (isTruthy st2 rv)), st2)
            | (.thrown exc, st2) => (.thrown exc, st2)
            | (.noFuel, st2) => (.noFuel, st2)
        | (.thrown exc, st1) => (.thrown exc, st1)
        | (.noFuel, st1) => (.noFuel, st1)
      | _ =>
        match evalExpr fuel l st with
        | (.ok lv, st1) =>
          match evalExpr fuel r st1 with
          | (.ok rv, st2) => applyBinaryOp fuel op lv rv st2
          | (.thrown exc, st2) => (.thrown exc, st2)
          | (.noFuel, st2) => (.noFuel, st2)
        | (.thrown exc, st1) => (.thrown exc, st1)
        | (.noFuel, st1) => (.noFuel, st1)
    | .unaryExpr op rE =>
      match evalExpr fuel rE st with
      | (.ok rv, st1) => (applyUnaryOp st1 op rv, st1)
      | (.thrown exc, st1) => (.thrown exc, st1)
      | (.noFuel, st1) => (.noFuel, st1)
    | .arrayExpr elems =>
      match evalArgs fuel elems st with
      | (.ok vs, st1) =>
        let (h, st2) := allocArr st1 vs
        (.ok (.arr h), st2)
      | (.thrown exc, st1) => (.thrown exc, st1)
      | (.noFuel, st1) => (.noFuel, st1)
    | .indexExpr aE iE =>
      match evalExpr fuel aE st with
      | (.ok av, st1) =>
        match evalExpr fuel iE st1 with
        | (.ok iv, st2) => indexRead st2 av iv
        | (.thrown exc, st2) => (.thrown exc, st2)
        | (.noFuel, st2) => (.noFuel, st2)
      | (.thrown exc, st1) => (.thrown exc, st1)
      | (.noFuel, st1) => (.noFuel, st1)
    | .indexAssignExpr aE iE vE =>
      match evalExpr fuel aE st with
      | (.ok av, st1) =>
        match evalExpr fuel iE st1 with
        | (.ok iv, st2) =>
          match evalExpr fuel vE st2 with
          | (.ok nv, st3) => indexWrite fuel st3 av iv nv
          | (.thrown exc, st3) => (.thrown exc, st3)
          | (.noFuel, st3) => (.noFuel, st3)
        | (.thrown exc, st2) => (.thrown exc, st2)
        | (.noFuel, st2) => (.noFuel, st2)
      | (.thrown exc, st1) => (.thrown exc, st1)
      | (.noFuel, st1) => (.noFuel, st1)
    | .callExpr callee argEs =>
      match evalArgs fuel argEs st with
      | (.ok args, st1) => dispatchCall fuel callee args st1
      | (.thrown exc, st1) => (.thrown exc, st1)
      | (.noFuel, st1) => (.noFuel, st1)
    | .groupingExpr inner => evalExpr fuel inner st

/-- evaluateExpr on a nullable expression pointer: null yields Nil. -/
def evalExprOpt : Nat → Option Expr → St → Res Value × St
  | 0, _, st => (.noFuel, st)
  | _ + 1, none, st => (.ok .nil, st)
  | fuel + 1, some e, st => evalExpr fuel e st

/-- Left-to-right evaluation of an expression list (call arguments,
array-literal elements). -/
def evalArgs : Nat → List Expr → St → Res (List Value) × St
  | 0, _, st => (.noFuel, st)
  | _ + 1, [], st => (.ok [], st)
  | fuel + 1, e :: rest, st =>
    match evalExpr fuel e st with
    | (.ok v, st1) =>
      match evalArgs fuel rest st1 with
      | (.ok vs, st2) => (.ok (v :: vs), st2)
      | (.thrown exc, st2) => (.thrown exc, st2)
      | (.noFuel, st2) => (.noFuel, st2)
    | (.thrown exc, st1) => (.thrown exc, st1)
    | (.noFuel, st1) => (.noFuel, st1)

/-- Callee resolution of the CallExpr arm, entered after the arguments are
already evaluated: a bare variable name that matches the built-in table
invokes the built-in directly — the environment is never consulted for it;
anything else evaluates the callee expression and calls the Function
value. -/
def dispatchCall : Nat → Expr → List Value → St → Res Value × St
  | 0, _, _, st => (.noFuel, st)
  | fuel + 1, callee, args, st =>
    match callee with
    | .variableExpr nm =>
      if builtinNames.contains nm then callBuiltin fuel nm args st
      else callNonBuiltin fuel callee args st
    | _ => callNonBuiltin fuel callee args st

/-- The user-function path of the CallExpr arm: evaluate the callee, check
it is a Function, check arity, bind parameters in a fresh scope chained to
the captured closure, run the body, convert a Return transfer into the
call's value. -/
def callNonBuiltin : Nat → Expr → List Value → St → Res Value × St
  | 0, _, _, st => (.noFuel, st)
  | fuel + 1, callee, args, st =>
    match evalExpr fuel callee st with
    | (.ok calleeValue, st1) =>
      match calleeValue with
      | .func h =>
        match st1.funcsH[h]? with
        | none => (.thrown (.ub "null funcValue"), st1)
        | some fd =>
          if fd.params.length ≠ args.length then
            (.thrown (.rte "Function argument count mismatch"), st1)
          else
            let (callEnvId, st2) := allocEnv st1 (some fd.closure)
            let st3 := defineParams callEnvId fd.params args st2
            match execBlock fuel fd.body callEnvId st3 with
            | (.ok _, st4) => (.ok .nil, st4)
            | (.thrown (.retv v), st4) => (.ok v, st4)
            | (.thrown exc, st4) => (.thrown exc, st4)
            | (.noFuel, st4) => (.noFuel, st4)
      | _ => (.thrown (.rte "Cannot call non-function value"), st1)
    | (.thrown exc, st1) => (.thrown exc, st1)
    | (.noFuel, st1) => (.noFuel, st1)

/-- Interpreter::executeBlock: swap the current environment for `blockEnv`,
run the statements, and restore the previous environment on every exit
path (the C++ try/catch-all rethrow plus the normal path). -/
def execBlock : Nat → List Stmt → Nat → St → Res Unit × St
  | 0, _, _, st => (.noFuel, st)
  | fuel + 1, stmts, blockEnvId, st =>
    let previous := st.envId
    match execStmts fuel stmts { st with envId := blockEnvId } with
    | (r, st1) => (r, { st1 with envId := previous })

/-- Statement-list execution (the loop bodies of executeBlock and
Interpreter::execute): stop at the first exception. -/
def execStmts : Nat → List Stmt → St → Res Unit × St
  | 0, _, st => (.noFuel, st)
  | _ + 1, [], st => (.ok (), st)
  | fuel + 1, s :: rest, st =>
    match execStmt fuel s st with
    | (.ok _, st1) => execStmts fuel rest st1
    | (.thrown exc, st1) => (.thrown exc, st1)
    | (.noFuel, st1) => (.noFuel, st1)

/-- executeStmt on a nullable statement pointer: null does nothing. -/
def execStmtOpt : Nat → Option Stmt → St → Res Unit × St
  | 0, _, st => (.noFuel, st)
  | _ + 1, none, st => (.ok (), st)
  | fuel + 1, some s, st => execStmt fuel s st

/-- The WhileStmt loop: re-evaluate the condition before each iteration. -/
def execWhile : Nat → Expr → Stmt → St → Res Unit × St
  | 0, _, _, st => (.noFuel, st)
  | fuel + 1, c, b, st =>
    match evalExpr fuel c st with
    | (.ok cv, st1) =>
      if isTruthy st1 cv then
        match execStmt fuel b st1 with
        | (.ok _, st2) => execWhile fuel c b st2
        | (.thrown exc, st2) => (.thrown exc, st2)
        | (.noFuel, st2) => (.noFuel, st2)
      else (.ok (), st1)
    | (.thrown exc, st1) => (.thrown exc, st1)
    | (.noFuel, st1) => (.noFuel, st1)

/-- Condition recognition of the ParallelStmt setup: only a BinaryExpr
whose operator is `<` or `<=` is inspected, and only its right operand is
evaluated (once) — the left operand is never examined; the bound must be a
Number (`<=` adds one).  Returns (endVal, validRange). -/
def parallelSetupCond : Nat → Option Expr → St → Res (Q × Bool) × St
  | 0, _, st => (.noFuel, st)
  | fuel + 1, condE, st =>
    match condE with
    | some (.binaryExpr _ op rE) =>
      if op = .less ∨ op = .lessEq then
        match evalExpr fuel rE st with
        | (.ok (.num q), st1) => (.ok (if op = .lessEq then q + 1 else q, true), st1)
        | (.ok _, st1) => (.ok (0, false), st1)
        | (.thrown exc, st1) => (.thrown exc, st1)
        | (.noFuel, st1) => (.noFuel, st1)
      else (.ok (0, false), st)
    | _ => (.ok (0, false), st)

/-- Increment recognition of the ParallelStmt setup: postfix `++`/`--`
gives step ±1; a CompoundAssign evaluates its right side and `+=`/`-=` by
a Number gives that step; every other shape leaves the step at its
default of 1 (it does not invalidate the range). -/
def parallelSetupIncr : Nat → Option Expr → St → Res Q × St
  | 0, _, st => (.noFuel, st)
  | fuel + 1, incrE, st =>
    match incrE with
    | some (.postfixExpr _ op) =>
      (.ok (if op = .plusPlus then 1 else if op = .minusMinus then -1 else 1), st)
    | some (.compoundAssignExpr _ op vE) =>
      match evalExpr fuel vE st with
      | (.ok (.num q), st1) =>
        (.ok (if op = .plusEq then q else if op = .minusEq then -q else 1), st1)
      | (.ok _, st1) => (.ok 1, st1)
      | (.thrown exc, st1) => (.thrown exc, st1)
      | (.noFuel, st1) => (.noFuel, st1)
    | _ => (.ok 1, st)

/-- The Setup state of the ParallelStmt arm, run with the loop scope
already current: execute the initializer, require it to be a VarDeclaration
(that is how the induction variable's name is learned), read the start
value (0 if not a Number), then recognize condition and increment. -/
def parallelSetup : Nat → Option Stmt → Option Expr → Option Expr → St →
    Res (String × Q × Q × Q × Bool) × St
  | 0, _, _, _, st => (.noFuel, st)
  | fuel + 1, initS, condE, incrE, st =>
    match execStmtOpt fuel initS st with
    | (.ok _, st1) =>
      match initS with
      | some (.varStmt vn _) =>
        match envGet st1 st1.envId vn with
        | .ok v =>
          match parallelSetupCond fuel condE st1 with
          | (.ok (e0, valid), st2) =>
            match parallelSetupIncr fuel incrE st2 with
            | (.ok stp, st3) => (.ok (vn, v.getNumD, e0, stp, valid), st3)
            | (.thrown exc, st3) => (.thrown exc, st3)
            | (.noFuel, st3) => (.noFuel, st3)
          | (.thrown exc, st2) => (.thrown exc, st2)
          | (.noFuel, st2) => (.noFuel, st2)
        | .thrown exc => (.thrown exc, st1)
        | .noFuel => (.noFuel, st1)
      | _ => (.thrown (.rte "Parallel for requires a variable initializer"), st1)
    | (.thrown exc, st1) => (.thrown exc, st1)
    | (.noFuel, st1) => (.noFuel, st1)

/-- The SequentialRun fallback of the ParallelStmt arm: literally a while
loop over the original condition/body/increment expressions. -/
def seqLoop : Nat → Option Expr → Option Expr → Stmt → St → Res Unit × St
  | 0, _, _, _, st => (.noFuel, st)
  | fuel + 1, condE, incrE, body, st =>
    match evalExprOpt fuel condE st with
    | (.ok cv, st1) =>
      if isTruthy st1 cv then
        match execStmt fuel body st1 with
        | (.ok _, st2) =>
          match evalExprOpt fuel incrE st2 with
          | (.ok _, st3) => seqLoop fuel condE incrE body st3
          | (.thrown exc, st3) => (.thrown exc, st3)
          | (.noFuel, st3) => (.noFuel, st3)
        | (.thrown exc, st2) => (.thrown exc, st2)
        | (.noFuel, st2) => (.noFuel, st2)
      else (.ok (), st1)
    | (.thrown exc, st1) => (.thrown exc, st1)
    | (.noFuel, st1) => (.noFuel, st1)

/-- The ParallelRun path, modelled as its deterministic claim-order
linearization (the schedule of a one-thread pool; the shared atomic
counter hands out indices 0, 1, 2, ...).  Each iteration binds the
induction variable in a fresh scope chained to the shared enclosing scope
and runs the body with the derived start/bound/step — the original
condition and increment expressions are not used here.  A worker fault
stops the loop and is re-raised as a plain RuntimeError; a stray
ReturnException is caught by the worker's catch(std::exception) whose
what() is the generic "std::exception" text. -/
def parIters : Nat → String → Q → Q → Q → Stmt → Nat → St → Res Unit × St
  | 0, _, _, _, _, _, _, st => (.noFuel, st)
  | fuel + 1, vn, s0, e0, stp, body, idx, st =>
    let currentI := s0 + (idx : Q) * stp
    let stillRunning := if stp > 0 then currentI < e0 else currentI > e0
    if stillRunning then
      let sharedEnv := st.envId
      let (iterId, st1) := allocEnv st (some sharedEnv)
      let st2 := envDefine { st1 with envId := iterId } iterId vn (.num currentI)
      match execStmt fuel body st2 with
      | (.ok _, st3) => parIters fuel vn s0 e0 stp body (idx + 1) { st3 with envId := sharedEnv }
      | (.thrown (.rte m), st3) => (.thrown (.rte m), { st3 with envId := sharedEnv })
      | (.thrown (.retv _), st3) =>
        (.thrown (.rte "std::exception"), { st3 with envId := sharedEnv })
      | (.thrown exc, st3) => (.thrown exc, { st3 with envId := sharedEnv })
      | (.noFuel, st3) => (.noFuel, st3)
    else (.ok (), st)

/-- Interpreter::executeStmt (src/src/Interpreter.h), fuel-indexed. -/
def execStmt : Nat → Stmt → St → Res Unit × St
  | 0, _, st => (.noFuel, st)
  | fuel + 1, s, st =>
    match s with
    | .exprStmt e =>
      match evalExpr fuel e st with
      | (.ok _, st1) => (.ok (), st1)
      | (.thrown exc, st1) => (.thrown exc, st1)
      | (.noFuel, st1) => (.noFuel, st1)
    | .varStmt nm initE =>
      match evalExprOpt fuel initE st with
      | (.ok v, st1) => (.ok (), envDefine st1 st1.envId nm v)
      | (.thrown exc, st1) => (.thrown exc, st1)
      | (.noFuel, st1) => (.noFuel, st1)
    | .blockStmt stmts =>
      let (blockEnvId, st1) := allocEnv st (some st.envId)
      execBlock fuel stmts blockEnvId st1
    | .ifStmt c t eB =>
      match evalExpr fuel c st with
      | (.ok cv, st1) =>
        if isTruthy st1 cv then execStmt fuel t st1
        else
          match eB with
          | some eStmt => execStmt fuel eStmt st1
          | none => (.ok (), st1)
      | (.thrown exc, st1) => (.thrown exc, st1)
      | (.noFuel, st1) => (.noFuel, st1)
    | .whileStmt c b => execWhile fuel c b st
    | .parallelStmt initS condE incrE body =>
      let prevEnv := st.envId
      let (loopId, st1) := allocEnv st (some st.envId)
      match parallelSetup fuel initS condE incrE { st1 with envId := loopId } with
      | (.ok (vn, s0, e0, stp, valid), st3) =>
        let st4 := { st3 with envId := prevEnv }
        if valid = true ∧ stp ≠ 0 then
          let totalOps : Int := truncQ ((e0 - s0) / stp)
          if totalOps ≤ 0 ∨ totalOps < 20 then
            let (seqId, st5) := allocEnv st4 (some st4.envId)
            match execStmtOpt fuel initS { st5 with envId := seqId } with
            | (.ok _, st6) =>
              match seqLoop fuel condE incrE body st6 with
              | (.ok _, st7) => (.ok (), { st7 with envId := prevEnv })
              | (.thrown exc, st7) => (.thrown exc, st7)
              | (.noFuel, st7) => (.noFuel, st7)
            | (.thrown exc, st6) => (.thrown exc, st6)
            | (.noFuel, st6) => (.noFuel, st6)
          else parIters fuel vn s0 e0 stp body 0 st4
        else
          (.thrown (.rte "Parallel loop too complex for automatic parallelization. Use simple numeric ranges."), st4)
      | (.thrown exc, st3) => (.thrown exc, st3)
      | (.noFuel, st3) => (.noFuel, st3)
    | .functionStmt nm ps bodyStmts =>
      let (h, st1) := allocFunc st ⟨ps, bodyStmts, st.envId⟩
      (.ok (), envDefine st1 st1.envId nm (.func h))
    | .returnStmt vE =>
      match evalExprOpt fuel vE st with
      | (.ok v, st1) => (.thrown (.retv v), st1)
      | (.thrown exc, st1) => (.thrown exc, st1)
      | (.noFuel, st1) => (.noFuel, st1)

end

/-- Interpreter::execute — run a top-level program; the first unrecovered
exception aborts the remaining statements. -/
def execProgram (fuel : Nat) (stmts : List Stmt) (st : St) : Res Unit × St :=
  execStmts fuel stmts st

/-- The state built by the Interpreter constructor: a fresh global
Environment that is also the current one, empty heaps, the (process-wide,
initially empty) AtomicRegistry, and a positive thread count
(hardware_concurrency, defaulted to 4). -/
def initSt : St :=
  { envs := [⟨none, []⟩], arraysH := [], stringsH := [], funcsH := [],
    atomics := [], globalsId := 0, envId := 0, outputLog := [], numThreads := 4 }

/-- The chain of scope indices reachable from `id` by parent links,
innermost first (the search order of Environment::get and ::assign). -/
def chainIdsAux : Nat → List EnvData → Nat → List Nat
  | 0, _, _ => []
  | fuel + 1, envs, id =>
    match envs[id]? with
    | none => [id]
    | some e =>
      match e.parent with
      | some p => id :: chainIdsAux fuel envs p
      | none => [id]

/-- The scope chain from `id`, innermost first. -/
def chainIds (st : St) (id : Nat) : List Nat := chainIdsAux (id + 1) st.envs id

/-- Does the scope with index `j` bind `n` in its own table? -/
def bindsName (envs : List EnvData) (n : String) (j : Nat) : Bool :=
  match envs[j]? with
  | none => false
  | some e => (lookupTbl e.table n).isSome

/-!  Helper lemmas about the environment heap. -/

/-- Setting a key makes it look up to the new value. -/
theorem lookupTbl_setTbl_self {α : Type} (t : List (String × α)) (k : String) (v : α) :
    lookupTbl (setTbl t k v) k = some v := by
  induction t with
  | nil => simp [setTbl, lookupTbl]
  | cons hd tl ih =>
    obtain ⟨k', v'⟩ := hd
    by_cases h : k' = k
    · simp [setTbl, h, lookupTbl]
    · simp [setTbl, h, lookupTbl, ih]

/-- Well-formedness read off at an index: parents decrease. -/
theorem wfFrom_parent_lt (envs : List EnvData) (j : Nat) :
    ∀ i e p, wfFrom j envs = true → envs[i]? = some e → e.parent = some p → p < j + i := by
  induction envs generalizing j with
  | nil => intro i e p _ h; simp at h
  | cons hd tl ih =>
    intro i e p hwf hget hp
    rw [wfFrom, Bool.and_eq_true] at hwf
    match i with
    | 0 =>
      simp at hget
      subst hget
      rw [hp] at hwf
      simpa using hwf.1
    | i' + 1 =>
      simp only [List.getElem?_cons_succ] at hget
      have := ih (j + 1) i' e p hwf.2 hget hp
      omega

/-- Well-formed heaps have strictly decreasing parent links. -/
theorem wfEnvs_parent_lt {envs : List EnvData} {i : Nat} {e : EnvData} {p : Nat}
    (hwf : wfEnvs envs) (hget : envs[i]? = some e) (hp : e.parent = some p) : p < i := by
  have := wfFrom_parent_lt envs 0 i e p hwf hget hp
  omega

/-- Joint characterization of Environment::assign and the chain search on a
well-formed heap, for any sufficient fuel: the walk finds the innermost
binding occurrence (`chainFindAux`), assign rewrites exactly that table
entry, and an unbound name leaves the heap untouched and throws. -/
theorem envAssignAux_spec (envs : List EnvData) (hwf : wfEnvs envs) (n : String) (v : Value) :
    ∀ fuel id, id < fuel → id < envs.length →
      (chainFindAux fuel envs id n = (chainIdsAux fuel envs id).find? (bindsName envs n)) ∧
      (chainFindAux fuel envs id n = none →
        envAssignAux fuel envs id n v =
          (.thrown (.rte ("Undefined variable \x27" ++ n ++ "\x27")), envs)) ∧
      (∀ j, chainFindAux fuel envs id n = some j →
        ∃ e, envs[j]? = some e ∧ (lookupTbl e.table n).isSome = true ∧
          envAssignAux fuel envs id n v =
            (.ok (), envs.set j { e with table := setTbl e.table n v })) := by
  intro fuel
  induction fuel with
  | zero => intro id h; omega
  | succ f ih =>
    intro id _ hlen
    obtain ⟨e, hget⟩ : ∃ e, envs[id]? = some e := by
      exact ⟨envs[id], (List.getElem?_eq_getElem hlen)⟩
    rcases hbound : lookupTbl e.table n with _ | w
    · rcases hpar : e.parent with _ | p
      · refine ⟨?_, ?_, ?_⟩
        · simp [chainFindAux, chainIdsAux, hget, hbound, hpar, List.find?, bindsName]
        · intro _
          simp [envAssignAux, hget, hbound, hpar]
        · intro j hj
          simp [chainFindAux, hget, hbound, hpar] at hj
      · have hplt : p < id := wfEnvs_parent_lt hwf hget hpar
        have hplen : p < envs.length := by omega
        have ihp := ih p (by omega) hplen
        refine ⟨?_, ?_, ?_⟩
        · simp only [chainFindAux, chainIdsAux, hget, hbound, hpar, List.find?, bindsName,
            Option.isSome]
          rw [ihp.1]
        · intro hnone
          simp only [chainFindAux, hget, hbound, hpar] at hnone
          simp only [envAssignAux, hget, hbound, hpar]
          exact ihp.2.1 hnone
        · intro j hj
          simp only [chainFindAux, hget, hbound, hpar] at hj
          simp only [envAssignAux, hget, hbound, hpar]
          exact ihp.2.2 j hj
    · refine ⟨?_, ?_, ?_⟩
      · rcases hpar : e.parent with _ | p <;>
          simp [chainFindAux, chainIdsAux, hget, hbound, hpar, List.find?, bindsName]
      · intro hnone
        simp [chainFindAux, hget, hbound] at hnone
      · intro j hj
        simp only [chainFindAux, hget, hbound] at hj
        injection hj with hj
        subst hj
        exact ⟨e, hget, by simp [hbound], by simp [envAssignAux, hget, hbound]⟩

/-- C5: on a well-formed scope chain, `assign` finds the nearest (innermost)
scope binding `n` — the first hit of the chain walk — and rewrites exactly
that table; when no scope in the chain binds `n`, it fails with the
UndefinedVariable error and returns the state completely unchanged (no
binding is created, every table is as before). -/
theorem assign_contract (st : St) (id : Nat) (n : String) (v : Value)
    (hwf : wfEnvs st.envs) (hid : id < st.envs.length) :
    (chainFind st id n = (chainIds st id).find? (bindsName st.envs n)) ∧
    (chainFind st id n = none →
      envAssign st id n v =
        (.thrown (.rte ("Undefined variable \x27" ++ n ++ "\x27")), st)) ∧
    (∀ j, chainFind st id n = some j →
      ∃ e, st.envs[j]? = some e ∧ (lookupTbl e.table n).isSome = true ∧
        envAssign st id n v =
          (.ok (), { st with envs := st.envs.set j { e with table := setTbl e.table n v } })) := by
  have h := envAssignAux_spec st.envs hwf n v (id + 1) id (by omega) hid
  refine ⟨h.1, ?_, ?_⟩
  · intro hnone
    have := h.2.1 hnone
    simp only [envAssign, chainFind]
    rw [this]
  · intro j hj
    obtain ⟨e, hget, hbound, heq⟩ := h.2.2 j hj
    refine ⟨e, hget, hbound, ?_⟩
    simp only [envAssign]
    rw [heq]

/-- Witness for C5 at a concrete two-scope chain: assigning an unbound name
fails and leaves the state unchanged; assigning a name bound only in the
outer (global) scope updates that nearest binding. -/
theorem assign_contract_witness :
    (wfEnvs [⟨none, [("x", Value.num 1)]⟩, ⟨some 0, []⟩]) ∧
    (envAssign { initSt with envs := [⟨none, [("x", .num 1)]⟩, ⟨some 0, []⟩], envId := 1 } 1 "y" (.num 5)
      = (.thrown (.rte ("Undefined variable \x27y\x27")),
         { initSt with envs := [⟨none, [("x", .num 1)]⟩, ⟨some 0, []⟩], envId := 1 })) ∧
    (envAssign { initSt with envs := [⟨none, [("x", .num 1)]⟩, ⟨some 0, []⟩], envId := 1 } 1 "x" (.num 7)
      = (.ok (), { initSt with envs := [⟨none, [("x", .num 7)]⟩, ⟨some 0, []⟩], envId := 1 })) := by
  have hwf : wfEnvs [⟨none, [("x", Value.num 1)]⟩, ⟨some 0, []⟩] := by decide
  refine ⟨hwf, ?_, ?_⟩
  · have h := assign_contract
      { initSt with envs := [⟨none, [("x", .num 1)]⟩, ⟨some 0, []⟩], envId := 1 }
      1 "y" (.num 5) hwf (by decide)
    exact h.2.1 (by decide)
  · have h := assign_contract
      { initSt with envs := [⟨none, [("x", .num 1)]⟩, ⟨some 0, []⟩], envId := 1 }
      1 "x" (.num 7) hwf (by decide)
    obtain ⟨e, hget, _, heq⟩ := h.2.2 0 (by decide)
    have he : e = ⟨none, [("x", Value.num 1)]⟩ := by
      simp at hget
      exact hget.symm
    subst he
    simpa [setTbl] using heq

/-- C4: a Block statement allocates a child Scope whose parent is the
current one, runs its statements there, and the evaluator's
current-environment pointer after the Block equals the one before it on
every exit path — normal completion, a thrown error, a Return transfer
(and even fuel exhaustion, the embedding's artifact). -/
theorem block_scope_restore (fuel : Nat) (stmts : List Stmt) (st : St) :
    ((execStmt fuel (.blockStmt stmts) st).2.envId = st.envId) ∧
    (∀ f, fuel = f + 2 →
      ∃ r st2,
        execStmts f stmts
          { st with envs := st.envs ++ [⟨some st.envId, []⟩], envId := st.envs.length }
          = (r, st2) ∧
        execStmt fuel (.blockStmt stmts) st = (r, { st2 with envId := st.envId })) := by
  constructor
  · match fuel with
    | 0 => rfl
    | 1 => rfl
    | f + 2 =>
      rcases hE : execStmts f stmts
        { st with envs := st.envs ++ [⟨some st.envId, []⟩], envId := st.envs.length } with ⟨r, st2⟩
      simp [execStmt, execBlock, allocEnv, hE]
  · intro f hf
    subst hf
    rcases hE : execStmts f stmts
      { st with envs := st.envs ++ [⟨some st.envId, []⟩], envId := st.envs.length } with ⟨r, st2⟩
    refine ⟨r, st2, rfl, ?_⟩
    simp [execStmt, execBlock, allocEnv, hE]

/-- Witness for C4 at a concrete block: the scope pointer is the same
after executing the Block, and the Block's outcome equals its body's
outcome in the freshly chained child scope with the pointer restored. -/
theorem block_scope_restore_witness :
    ((execStmt 5 (.blockStmt [.exprStmt (.literalExpr .nil)]) initSt).2.envId = initSt.envId) ∧
    (∃ r st2,
      execStmts 3 [.exprStmt (.literalExpr .nil)]
        { initSt with envs := initSt.envs ++ [⟨some initSt.envId, []⟩],
                      envId := initSt.envs.length } = (r, st2) ∧
      execStmt 5 (.blockStmt [.exprStmt (.literalExpr .nil)]) initSt
        = (r, { st2 with envId := initSt.envId })) :=
  ⟨(block_scope_restore 5 [.exprStmt (.literalExpr .nil)] initSt).1,
   (block_scope_restore 5 [.exprStmt (.literalExpr .nil)] initSt).2 3 rfl⟩

/-- C6: for a Call whose callee is a bare variable name matching the
built-in table, the built-in is invoked on the already-evaluated
arguments, even though the name is bound in the current Scope chain (to
`w`, which is never consulted — the result does not mention the chain
lookup); and the CallExpr arm evaluates arguments first and then defers to
exactly this dispatch. -/
theorem builtin_precedence (fuel : Nat) (st : St) (nm : String) (args : List Value)
    (w : Value)
    (hb : builtinNames.contains nm = true)
    (_hbound : envGet st st.envId nm = .ok w) :
    dispatchCall (fuel + 1) (.variableExpr nm) args st = callBuiltin fuel nm args st ∧
    (∀ argEs,
      evalExpr (fuel + 2) (.callExpr (.variableExpr nm) argEs) st =
        match evalArgs (fuel + 1) argEs st with
        | (.ok vals, st1) => dispatchCall (fuel + 1) (.variableExpr nm) vals st1
        | (.thrown exc, st1) => (.thrown exc, st1)
        | (.noFuel, st1) => (.noFuel, st1)) := by
  constructor
  · simp only [dispatchCall]
    rw [if_pos hb]
  · intro argEs
    rfl

/-- Witness for C6: with `len` bound to the Number 99 in the global scope,
calling the bare name `len` still runs the built-in, and the full
evaluation of `len([1, 2])` in that state yields 2, not an error about
calling a Number. -/
theorem builtin_precedence_witness :
    (builtinNames.contains "len" = true) ∧
    (envGet (envDefine initSt 0 "len" (.num 99)) (envDefine initSt 0 "len" (.num 99)).envId "len"
       = .ok (.num 99)) ∧
    (dispatchCall 4 (.variableExpr "len") [] (envDefine initSt 0 "len" (.num 99))
       = callBuiltin 3 "len" [] (envDefine initSt 0 "len" (.num 99))) ∧
    ((evalExpr 7 (.callExpr (.variableExpr "len")
        [.arrayExpr [.literalExpr (.num 1), .literalExpr (.num 2)]])
        (envDefine initSt 0 "len" (.num 99))).1 = .ok (.num 2)) := by
  refine ⟨by decide, by decide, ?_, by rfl⟩
  exact (builtin_precedence 3 (envDefine initSt 0 "len" (.num 99)) "len" [] (.num 99)
    (by decide) (by decide)).1

/-- C7: `==` on two Array values compares only the lengths of the shared
buffers — element contents are irrelevant — and `!=` is its exact
negation. -/
theorem array_eq_by_length (fuel : Nat) (st : St) (h1 h2 : Nat) (a1 a2 : List Value)
    (hget1 : st.arraysH[h1]? = some a1) (hget2 : st.arraysH[h2]? = some a2) :
    applyBinaryOp fuel .eqEq (.arr h1) (.arr h2) st
      = (.ok (.boolV (a1.length == a2.length)), st) ∧
    applyBinaryOp fuel .bangEq (.arr h1) (.arr h2) st
      = (.ok (.boolV (!(a1.length == a2.length))), st) := by
  constructor <;>
    simp [applyBinaryOp, Value.isNum, Value.isStr, Value.isArr, isEqual,
      arrContentD, Value.getArrHD, hget1, hget2]

/-- Witness for C7: two arrays with the same length but different
contents compare equal, and `!=` on them is false. -/
theorem array_eq_by_length_witness :
    (({ initSt with arraysH := [[.num 1, .num 2], [.num 5, .num 6]] } : St).arraysH[0]?
       = some [.num 1, .num 2]) ∧
    (applyBinaryOp 1 .eqEq (.arr 0) (.arr 1)
        { initSt with arraysH := [[.num 1, .num 2], [.num 5, .num 6]] }
      = (.ok (.boolV true), { initSt with arraysH := [[.num 1, .num 2], [.num 5, .num 6]] })) ∧
    (applyBinaryOp 1 .bangEq (.arr 0) (.arr 1)
        { initSt with arraysH := [[.num 1, .num 2], [.num 5, .num 6]] }
      = (.ok (.boolV false), { initSt with arraysH := [[.num 1, .num 2], [.num 5, .num 6]] })) := by
  refine ⟨by decide, ?_, ?_⟩
  · have h := (array_eq_by_length 1
      { initSt with arraysH := [[.num 1, .num 2], [.num 5, .num 6]] }
      0 1 [.num 1, .num 2] [.num 5, .num 6] (by decide) (by decide)).1
    simpa using h
  · have h := (array_eq_by_length 1
      { initSt with arraysH := [[.num 1, .num 2], [.num 5, .num 6]] }
      0 1 [.num 1, .num 2] [.num 5, .num 6] (by decide) (by decide)).2
    simpa using h

/-- C10: atomic_load on a valid name never fails: a name no atomic
built-in has ever stored reads as Number 0 (std::map::find does not
insert), a stored name reads its registered value, and in both cases the
state is returned completely unchanged — no register entry and no
global-Scope binding is created by the read. -/
theorem atomic_load_contract (fuel : Nat) (st : St) (h : Nat) (nmChars : List Char)
    (hs : st.stringsH[h]? = some nmChars) :
    callBuiltin fuel "atomic_load" [.str h] st =
      (.ok (.num ((lookupTbl st.atomics (String.mk nmChars)).getD 0)), st) := by
  rcases hl : lookupTbl st.atomics (String.mk nmChars) with _ | q <;>
    simp [callBuiltin, strNameOf, hs, hl]

/-- Witness for C10: loading the never-stored name `x` yields 0 and the
state — registers and scopes — is exactly as before. -/
theorem atomic_load_contract_witness :
    (({ initSt with stringsH := [['x']] } : St).stringsH[0]? = some ['x']) ∧
    (callBuiltin 1 "atomic_load" [.str 0] { initSt with stringsH := [['x']] }
      = (.ok (.num 0), { initSt with stringsH := [['x']] })) := by
  refine ⟨by decide, ?_⟩
  have h := atomic_load_contract 1 { initSt with stringsH := [['x']] } 0 ['x'] (by decide)
  simpa using h

/-- Integral rationals truncate to themselves. -/
theorem truncQ_intCast (i : Int) : truncQ (i : Q) = i := Int.tdiv_one i

/-- The negative-index adjustment performed by the Index arms: a negative
(truncated) index counts from the end. -/
def adjIdx (i L : Int) : Int := if i < 0 then L + i else i

/-- An in-bounds Array read returns the element, state untouched. -/
theorem indexRead_arr_ok (st : St) (h : Nat) (elems : List Value) (q : Q) (j : Int)
    (hget : st.arraysH[h]? = some elems)
    (hj : adjIdx (truncQ q) (elems.length) = j)
    (h0 : 0 ≤ j) (h1 : j < (elems.length : Int)) :
    indexRead st (.arr h) (.num q) = (.ok ((elems[j.toNat]?).getD .nil), st) := by
  simp only [indexRead, hget, adjIdx] at hj ⊢
  rw [hj]
  have hcond : ¬(j < 0 ∨ (elems.length : Int) ≤ j) := by omega
  rw [if_neg hcond]

/-- An out-of-bounds (after adjustment) Array read throws. -/
theorem indexRead_arr_oob (st : St) (h : Nat) (elems : List Value) (q : Q) (j : Int)
    (hget : st.arraysH[h]? = some elems)
    (hj : adjIdx (truncQ q) (elems.length) = j)
    (hoob : j < 0 ∨ (elems.length : Int) ≤ j) :
    indexRead st (.arr h) (.num q) = (.thrown (.rte "Array index out of bounds"), st) := by
  simp only [indexRead, hget, adjIdx] at hj ⊢
  rw [hj]
  rw [if_pos hoob]

/-- An in-bounds String read allocates a fresh one-character String. -/
theorem indexRead_str_ok (st : St) (hs : Nat) (cs : List Char) (q : Q) (j : Int)
    (hget : st.stringsH[hs]? = some cs)
    (hj : adjIdx (truncQ q) (cs.length) = j)
    (h0 : 0 ≤ j) (h1 : j < (cs.length : Int)) :
    indexRead st (.str hs) (.num q)
      = (.ok (.str st.stringsH.length),
         { st with stringsH := st.stringsH ++ [[(cs[j.toNat]?).getD (Char.ofNat 0)]] }) := by
  simp only [indexRead, hget, adjIdx, allocStr] at hj ⊢
  rw [hj]
  have hcond : ¬(j < 0 ∨ (cs.length : Int) ≤ j) := by omega
  rw [if_neg hcond]

/-- An out-of-bounds String read throws. -/
theorem indexRead_str_oob (st : St) (hs : Nat) (cs : List Char) (q : Q) (j : Int)
    (hget : st.stringsH[hs]? = some cs)
    (hj : adjIdx (truncQ q) (cs.length) = j)
    (hoob : j < 0 ∨ (cs.length : Int) ≤ j) :
    indexRead st (.str hs) (.num q) = (.thrown (.rte "String index out of bounds"), st) := by
  simp only [indexRead, hget, adjIdx] at hj ⊢
  rw [hj]
  rw [if_pos hoob]

/-- An in-bounds Array write replaces the element in the shared buffer and
returns the assigned value. -/
theorem indexWrite_arr_ok (fuel : Nat) (st : St) (h : Nat) (elems : List Value)
    (q : Q) (j : Int) (nv : Value)
    (hget : st.arraysH[h]? = some elems)
    (hj : adjIdx (truncQ q) (elems.length) = j)
    (h0 : 0 ≤ j) (h1 : j < (elems.length : Int)) :
    indexWrite fuel st (.arr h) (.num q) nv
      = (.ok nv, { st with arraysH := st.arraysH.set h (elems.set j.toNat nv) }) := by
  simp only [indexWrite, hget, adjIdx] at hj ⊢
  rw [hj]
  have hcond : ¬(j < 0 ∨ (elems.length : Int) ≤ j) := by omega
  rw [if_neg hcond]

/-- An out-of-bounds Array write throws. -/
theorem indexWrite_arr_oob (fuel : Nat) (st : St) (h : Nat) (elems : List Value)
    (q : Q) (j : Int) (nv : Value)
    (hget : st.arraysH[h]? = some elems)
    (hj : adjIdx (truncQ q) (elems.length) = j)
    (hoob : j < 0 ∨ (elems.length : Int) ≤ j) :
    indexWrite fuel st (.arr h) (.num q) nv
      = (.thrown (.rte "Array index out of bounds"), st) := by
  simp only [indexWrite, hget, adjIdx] at hj ⊢
  rw [hj]
  rw [if_pos hoob]

/-- An in-bounds String write stores the first character of the value's
rendering into the shared buffer and returns the value. -/
theorem indexWrite_str_ok (fuel : Nat) (st : St) (hs : Nat) (cs rend : List Char)
    (q : Q) (j : Int) (nv : Value)
    (hget : st.stringsH[hs]? = some cs)
    (hrend : toStringF fuel st nv = some rend)
    (hj : adjIdx (truncQ q) (cs.length) = j)
    (h0 : 0 ≤ j) (h1 : j < (cs.length : Int)) :
    indexWrite fuel st (.str hs) (.num q) nv
      = (.ok nv, { st with stringsH := st.stringsH.set hs (cs.set j.toNat (rend.headD (Char.ofNat 0))) }) := by
  simp only [indexWrite, hget, adjIdx] at hj ⊢
  rw [hj]
  have hcond : ¬(j < 0 ∨ (cs.length : Int) ≤ j) := by omega
  rw [if_neg hcond, hrend]

/-- An out-of-bounds String write throws. -/
theorem indexWrite_str_oob (fuel : Nat) (st : St) (hs : Nat) (cs : List Char)
    (q : Q) (j : Int) (nv : Value)
    (hget : st.stringsH[hs]? = some cs)
    (hj : adjIdx (truncQ q) (cs.length) = j)
    (hoob : j < 0 ∨ (cs.length : Int) ≤ j) :
    indexWrite fuel st (.str hs) (.num q) nv
      = (.thrown (.rte "String index out of bounds"), st) := by
  simp only [indexWrite, hget, adjIdx] at hj ⊢
  rw [hj]
  rw [if_pos hoob]

/-- C9: a non-integer Number index does not fail — it is truncated toward
zero (static_cast<int>) before the negative-index adjustment, so Index
reads and writes behave exactly as with the truncated integer index; in
particular, on an array with at least two elements, `a[1.9]` reads the
same element as `a[1]` and `a[-0.5]` the same as `a[0]`. -/
theorem index_truncation (fuel : Nat) (st : St) (target : Value) (q : Q) (nv : Value) :
    (indexRead st target (.num q) = indexRead st target (.num ((truncQ q : Int) : Q))) ∧
    (indexWrite fuel st target (.num q) nv
      = indexWrite fuel st target (.num ((truncQ q : Int) : Q)) nv) ∧
    (∀ h e0 e1 rest, st.arraysH[h]? = some (e0 :: e1 :: rest) →
      indexRead st (.arr h) (.num ((19 : Q) / 10)) = (.ok e1, st) ∧
      indexRead st (.arr h) (.num (-((1 : Q) / 2))) = (.ok e0, st)) := by
  refine ⟨?_, ?_, ?_⟩
  · simp [indexRead, truncQ_intCast]
  · simp [indexWrite, truncQ_intCast]
  · intro h e0 e1 rest hget
    constructor
    · have h19 : truncQ ((19 : Q) / 10) = 1 := by decide
      have := indexRead_arr_ok st h (e0 :: e1 :: rest) ((19 : Q) / 10) 1 hget
        (by rw [h19]; simp [adjIdx]) (by omega) (by (have hl : (e0 :: e1 :: rest).length = rest.length + 2 := by simp); omega)
      simpa using this
    · have hm : truncQ (-((1 : Q) / 2)) = 0 := by decide
      have := indexRead_arr_ok st h (e0 :: e1 :: rest) (-((1 : Q) / 2)) 0 hget
        (by rw [hm]; simp [adjIdx]) (by omega) (by (have hl : (e0 :: e1 :: rest).length = rest.length + 2 := by simp); omega)
      simpa using this

/-- Witness for C9 on a two-element array: `a[1.9]` and `a[1]` read the
second element, `a[-0.5]` reads the first. -/
theorem index_truncation_witness :
    (({ initSt with arraysH := [[.num 10, .num 20]] } : St).arraysH[0]? = some [.num 10, .num 20]) ∧
    (indexRead { initSt with arraysH := [[.num 10, .num 20]] } (.arr 0) (.num ((19 : Q) / 10))
      = (.ok (.num 20), { initSt with arraysH := [[.num 10, .num 20]] })) ∧
    (indexRead { initSt with arraysH := [[.num 10, .num 20]] } (.arr 0) (.num (-((1 : Q) / 2)))
      = (.ok (.num 10), { initSt with arraysH := [[.num 10, .num 20]] })) := by
  refine ⟨by decide, ?_, ?_⟩
  · exact ((index_truncation 1 { initSt with arraysH := [[.num 10, .num 20]] }
      (.arr 0) 1 .nil).2.2 0 (.num 10) (.num 20) [] (by decide)).1
  · exact ((index_truncation 1 { initSt with arraysH := [[.num 10, .num 20]] }
      (.arr 0) 1 .nil).2.2 0 (.num 10) (.num 20) [] (by decide)).2

/-- C8: the Index read/write contract for a Number index of integral value
`i` on shared Array/String buffers: a non-Number index fails (before the
target is even inspected); a negative `i` is adjusted by `+ length`; an
adjusted index outside [0, length) fails with the out-of-bounds error;
indexing a String reads a fresh single-character String, and writing
stores a single character (the first of the value's rendering) into the
shared buffer; indexing a value of any other kind is not indexable. -/
theorem index_bounds_contract (fuel : Nat) (st : St) (h hs hn : Nat)
    (elems : List Value) (cs : List Char) (i : Int) (nv : Value) (c0 : Char) (rest : List Char)
    (hget : st.arraysH[h]? = some elems)
    (hgets : st.stringsH[hs]? = some cs) :
    (0 ≤ adjIdx i elems.length → adjIdx i elems.length < (elems.length : Int) →
      indexRead st (.arr h) (.num (i : Q))
        = (.ok ((elems[(adjIdx i elems.length).toNat]?).getD .nil), st)) ∧
    (adjIdx i elems.length < 0 ∨ (elems.length : Int) ≤ adjIdx i elems.length →
      indexRead st (.arr h) (.num (i : Q)) = (.thrown (.rte "Array index out of bounds"), st)) ∧
    (0 ≤ adjIdx i cs.length → adjIdx i cs.length < (cs.length : Int) →
      indexRead st (.str hs) (.num (i : Q))
        = (.ok (.str st.stringsH.length),
           { st with stringsH := st.stringsH ++ [[(cs[(adjIdx i cs.length).toNat]?).getD (Char.ofNat 0)]] })) ∧
    (adjIdx i cs.length < 0 ∨ (cs.length : Int) ≤ adjIdx i cs.length →
      indexRead st (.str hs) (.num (i : Q)) = (.thrown (.rte "String index out of bounds"), st)) ∧
    (∀ t vIdx, vIdx.isNum = false →
      indexRead st t vIdx = (.thrown (.rte "Index must be a number"), st)) ∧
    (∀ v, v.isArr = false → v.isStr = false →
      indexRead st v (.num (i : Q)) = (.thrown (.rte "Cannot index non-array/string value"), st)) ∧
    (0 ≤ adjIdx i elems.length → adjIdx i elems.length < (elems.length : Int) →
      indexWrite fuel st (.arr h) (.num (i : Q)) nv
        = (.ok nv, { st with arraysH := st.arraysH.set h (elems.set (adjIdx i elems.length).toNat nv) })) ∧
    (adjIdx i elems.length < 0 ∨ (elems.length : Int) ≤ adjIdx i elems.length →
      indexWrite fuel st (.arr h) (.num (i : Q)) nv
        = (.thrown (.rte "Array index out of bounds"), st)) ∧
    (st.stringsH[hn]? = some (c0 :: rest) →
      0 ≤ adjIdx i cs.length → adjIdx i cs.length < (cs.length : Int) →
      indexWrite (fuel + 1) st (.str hs) (.num (i : Q)) (.str hn)
        = (.ok (.str hn), { st with stringsH := st.stringsH.set hs (cs.set (adjIdx i cs.length).toNat c0) })) ∧
    (adjIdx i cs.length < 0 ∨ (cs.length : Int) ≤ adjIdx i cs.length →
      indexWrite fuel st (.str hs) (.num (i : Q)) nv
        = (.thrown (.rte "String index out of bounds"), st)) ∧
    (∀ t vIdx, vIdx.isNum = false →
      indexWrite fuel st t vIdx nv = (.thrown (.rte "Index must be a number"), st)) ∧
    (∀ v, v.isArr = false → v.isStr = false →
      indexWrite fuel st v (.num (i : Q)) nv
        = (.thrown (.rte "Cannot index assign to non-array value"), st)) := by
  refine ⟨?_, ?_, ?_, ?_, ?_, ?_, ?_, ?_, ?_, ?_, ?_, ?_⟩
  · intro h0 h1
    exact indexRead_arr_ok st h elems (i : Q) _ hget (by rw [truncQ_intCast]) h0 h1
  · intro hoob
    exact indexRead_arr_oob st h elems (i : Q) _ hget (by rw [truncQ_intCast]) hoob
  · intro h0 h1
    exact indexRead_str_ok st hs cs (i : Q) _ hgets (by rw [truncQ_intCast]) h0 h1
  · intro hoob
    exact indexRead_str_oob st hs cs (i : Q) _ hgets (by rw [truncQ_intCast]) hoob
  · intro t vIdx hv
    cases vIdx <;> simp_all [indexRead, Value.isNum]
  · intro v ha hsv
    cases v <;> simp_all [indexRead, Value.isArr, Value.isStr]
  · intro h0 h1
    exact indexWrite_arr_ok fuel st h elems (i : Q) _ nv hget (by rw [truncQ_intCast]) h0 h1
  · intro hoob
    exact indexWrite_arr_oob fuel st h elems (i : Q) _ nv hget (by rw [truncQ_intCast]) hoob
  · intro hnv h0 h1
    have hrend : toStringF (fuel + 1) st (.str hn) = some (c0 :: rest) := by
      simp [toStringF, hnv]
    have := indexWrite_str_ok (fuel + 1) st hs cs (c0 :: rest) (i : Q) _ (.str hn)
      hgets hrend (by rw [truncQ_intCast]) h0 h1
    simpa using this
  · intro hoob
    exact indexWrite_str_oob fuel st hs cs (i : Q) _ nv hgets (by rw [truncQ_intCast]) hoob
  · intro t vIdx hv
    cases vIdx <;> simp_all [indexWrite, Value.isNum]
  · intro v ha hsv
    cases v <;> simp_all [indexWrite, Value.isArr, Value.isStr]

/-- Witness for C8 on the array [10, 20] and the string "ab": index -1
reads the last element, index 2 is out of bounds after adjustment, a Bool
index fails as non-Number, indexing a Number is not indexable, and a
string write replaces a single shared character. -/
theorem index_bounds_contract_witness :
    (({ initSt with arraysH := [[.num 10, .num 20]], stringsH := [['a', 'b'], ['z']] } : St).arraysH[0]?
       = some [.num 10, .num 20]) ∧
    (indexRead { initSt with arraysH := [[.num 10, .num 20]], stringsH := [['a', 'b'], ['z']] }
        (.arr 0) (.num ((-1 : Int) : Q))
      = (.ok (.num 20), { initSt with arraysH := [[.num 10, .num 20]], stringsH := [['a', 'b'], ['z']] })) ∧
    (indexRead { initSt with arraysH := [[.num 10, .num 20]], stringsH := [['a', 'b'], ['z']] }
        (.arr 0) (.num ((2 : Int) : Q))
      = (.thrown (.rte "Array index out of bounds"),
         { initSt with arraysH := [[.num 10, .num 20]], stringsH := [['a', 'b'], ['z']] })) ∧
    (indexRead { initSt with arraysH := [[.num 10, .num 20]], stringsH := [['a', 'b'], ['z']] }
        (.arr 0) (.boolV true)
      = (.thrown (.rte "Index must be a number"),
         { initSt with arraysH := [[.num 10, .num 20]], stringsH := [['a', 'b'], ['z']] })) ∧
    (indexRead { initSt with arraysH := [[.num 10, .num 20]], stringsH := [['a', 'b'], ['z']] }
        (.num 7) (.num ((0 : Int) : Q))
      = (.thrown (.rte "Cannot index non-array/string value"),
         { initSt with arraysH := [[.num 10, .num 20]], stringsH := [['a', 'b'], ['z']] })) ∧
    (indexWrite 1 { initSt with arraysH := [[.num 10, .num 20]], stringsH := [['a', 'b'], ['z']] }
        (.str 0) (.num ((1 : Int) : Q)) (.str 1)
      = (.ok (.str 1), { initSt with arraysH := [[.num 10, .num 20]], stringsH := [['a', 'z'], ['z']] })) := by
  have hm := index_bounds_contract 0
    { initSt with arraysH := [[.num 10, .num 20]], stringsH := [['a', 'b'], ['z']] }
    0 0 1 [.num 10, .num 20] ['a', 'b'] (-1) .nil 'z' []
    (by decide) (by decide)
  have hm2 := index_bounds_contract 0
    { initSt with arraysH := [[.num 10, .num 20]], stringsH := [['a', 'b'], ['z']] }
    0 0 1 [.num 10, .num 20] ['a', 'b'] 2 .nil 'z' []
    (by decide) (by decide)
  have hm1 := index_bounds_contract 0
    { initSt with arraysH := [[.num 10, .num 20]], stringsH := [['a', 'b'], ['z']] }
    0 0 1 [.num 10, .num 20] ['a', 'b'] 1 .nil 'z' []
    (by decide) (by decide)
  have hm0 := index_bounds_contract 0
    { initSt with arraysH := [[.num 10, .num 20]], stringsH := [['a', 'b'], ['z']] }
    0 0 1 [.num 10, .num 20] ['a', 'b'] 0 .nil 'z' []
    (by decide) (by decide)
  refine ⟨by decide, ?_, ?_, ?_, ?_, ?_⟩
  · have := hm.1 (by decide) (by decide)
    simpa [adjIdx] using this
  · have := hm2.2.1 (by decide)
    simpa using this
  · exact hm.2.2.2.2.1 (.arr 0) (.boolV true) (by decide)
  · exact hm0.2.2.2.2.2.1 (.num 7) (by decide) (by decide)
  · have := hm1.2.2.2.2.2.2.2.2.1 (by decide) (by decide) (by decide)
    simpa [adjIdx] using this

/-- A successful getElem? lookup bounds the index. -/
theorem getElem?_lt_length {α : Type} {l : List α} {i : Nat} {a : α}
    (h : l[i]? = some a) : i < l.length := by
  by_contra hn
  push_neg at hn
  rw [List.getElem?_eq_none hn] at h
  exact Option.noConfusion h

/-- Environment::assign on a scope whose own table already binds the name
rewrites that entry in place. -/
theorem envAssign_found (st : St) (id : Nat) (nm : String) (v : Value) (g : EnvData)
    (hg : st.envs[id]? = some g) (hb : (lookupTbl g.table nm).isSome = true) :
    envAssign st id nm v
      = (.ok (), { st with envs := st.envs.set id { g with table := setTbl g.table nm v } }) := by
  obtain ⟨w, hw⟩ := Option.isSome_iff_exists.mp hb
  simp [envAssign, envAssignAux, hg, hw]

/-- The read-modify-write atomics' common tail, when the mirrored name is
already bound in the global Scope: the register is set to `r` and the same
value is assigned into the global table, in one step. -/
theorem atomicRmw_mirrors (st : St) (nm : String) (r : Q) (g : EnvData)
    (hg : st.envs[st.globalsId]? = some g)
    (hb : (lookupTbl g.table nm).isSome = true) :
    atomicRmw st nm r
      = (.ok (.num r),
         { st with atomics := setTbl st.atomics nm r,
                   envs := st.envs.set st.globalsId { g with table := setTbl g.table nm (.num r) } }) := by
  have hg1 : ({ st with atomics := setTbl st.atomics nm r } : St).envs[({ st with atomics := setTbl st.atomics nm r } : St).globalsId]? = some g := hg
  have := envAssign_found { st with atomics := setTbl st.atomics nm r }
    ({ st with atomics := setTbl st.atomics nm r } : St).globalsId nm (.num r) g hg1 hb
  simp only [atomicRmw]
  rw [this]

/-- C3 counterexample: with the name `x` never defined in the global
Scope, `atomic_add("x", 1)` mutates the register to 1, then the mirrored
Scope write throws UndefinedVariable — the registry is updated without the
global-Scope binding (which is never created), refuting "the registry and
the mirrored global-Scope binding are updated together ... regardless of
whether n was previously defined in the global Scope". -/
theorem atomic_mirror_counterexample :
    callBuiltin 1 "atomic_add" [.str 0, .num 1] { initSt with stringsH := [['x']] }
      = (.thrown (.rte ("Undefined variable \x27x\x27")),
         { initSt with stringsH := [['x']], atomics := [("x", 1)] }) := by rfl

/-- C3 amended: `atomic_store` always updates the register and the global
Scope together — its mirror is a `define`, which creates the binding when
the name was not previously bound (first conjunct, with no boundness
hypothesis: after the call, register and global binding both hold the
stored value whatever the prior state).  The read-modify-write atomics
(`add`, `sub`, `inc`, `dec`, `xchg`, and a succeeding `cas`) update both
together provided the name is already bound in the global Scope (second
conjunct).  When the name is unbound, the counterexample shows an RMW op
mutates the register alone and the call throws. -/
theorem atomic_mirror_amended (fuel : Nat) (st : St) (h : Nat) (nmChars : List Char)
    (v : Q) (g : EnvData)
    (hs : st.stringsH[h]? = some nmChars)
    (hg : st.envs[st.globalsId]? = some g) :
    (∃ st', callBuiltin fuel "atomic_store" [.str h, .num v] st = (.ok .nil, st') ∧
      lookupTbl st'.atomics (String.mk nmChars) = some v ∧
      ∃ g', st'.envs[st.globalsId]? = some g' ∧
        lookupTbl g'.table (String.mk nmChars) = some (.num v)) ∧
    ((lookupTbl g.table (String.mk nmChars)).isSome = true →
      ∀ op ∈ (["atomic_store", "atomic_add", "atomic_sub", "atomic_inc",
               "atomic_dec", "atomic_xchg", "atomic_cas"] : List String),
        ∃ (r : Q) (res : Value) (st' : St),
          callBuiltin fuel op
            (if op = "atomic_inc" ∨ op = "atomic_dec" then [.str h]
             else if op = "atomic_cas" then
               [.str h, .num (regLookupD st (String.mk nmChars)), .num v]
             else [.str h, .num v]) st
            = (.ok res, st') ∧
          lookupTbl st'.atomics (String.mk nmChars) = some r ∧
          ∃ g', st'.envs[st.globalsId]? = some g' ∧
            lookupTbl g'.table (String.mk nmChars) = some (.num r)) := by
  have hlt : st.globalsId < st.envs.length := getElem?_lt_length hg
  constructor
  · -- atomic_store creates or overwrites the binding; no boundness needed
    refine ⟨{ st with atomics := setTbl st.atomics (String.mk nmChars) v,
                      envs := st.envs.set st.globalsId { g with table := setTbl g.table (String.mk nmChars) (.num v) } },
      ?_, ?_, ?_⟩
    · simp [callBuiltin, strNameOf, hs, numberArg, Value.getNumD, envDefine, hg]
    · exact lookupTbl_setTbl_self _ _ _
    · exact ⟨_, List.getElem?_set_eq_of_lt _ hlt, lookupTbl_setTbl_self _ _ _⟩
  · intro hb
    obtain ⟨w, hw⟩ := Option.isSome_iff_exists.mp hb
    intro op hop
    fin_cases hop <;>
      simp only [String.reduceEq, or_self, false_or, or_false, if_false, if_true, reduceIte]
    · -- atomic_store
      refine ⟨v, .nil,
        { st with atomics := setTbl st.atomics (String.mk nmChars) v,
                  envs := st.envs.set st.globalsId { g with table := setTbl g.table (String.mk nmChars) (.num v) } },
        ?_, ?_, ?_⟩
      · simp [callBuiltin, strNameOf, hs, numberArg, Value.getNumD, envDefine, hg]
      · exact lookupTbl_setTbl_self _ _ _
      · exact ⟨_, List.getElem?_set_eq_of_lt _ hlt, lookupTbl_setTbl_self _ _ _⟩
    · -- atomic_add
      refine ⟨regLookupD st (String.mk nmChars) + v, .num (regLookupD st (String.mk nmChars) + v),
        { st with atomics := setTbl st.atomics (String.mk nmChars) (regLookupD st (String.mk nmChars) + v),
                  envs := st.envs.set st.globalsId { g with table := setTbl g.table (String.mk nmChars) (.num (regLookupD st (String.mk nmChars) + v)) } },
        ?_, ?_, ?_⟩
      · simp [callBuiltin, strNameOf, hs, numberArg, Value.getNumD, atomicRmw,
          envAssign, envAssignAux, hg, hw]
      · exact lookupTbl_setTbl_self _ _ _
      · exact ⟨_, List.getElem?_set_eq_of_lt _ hlt, lookupTbl_setTbl_self _ _ _⟩
    · -- atomic_sub
      refine ⟨regLookupD st (String.mk nmChars) - v, .num (regLookupD st (String.mk nmChars) - v),
        { st with atomics := setTbl st.atomics (String.mk nmChars) (regLookupD st (String.mk nmChars) - v),
                  envs := st.envs.set st.globalsId { g with table := setTbl g.table (String.mk nmChars) (.num (regLookupD st (String.mk nmChars) - v)) } },
        ?_, ?_, ?_⟩
      · simp [callBuiltin, strNameOf, hs, numberArg, Value.getNumD, atomicRmw,
          envAssign, envAssignAux, hg, hw]
      · exact lookupTbl_setTbl_self _ _ _
      · exact ⟨_, List.getElem?_set_eq_of_lt _ hlt, lookupTbl_setTbl_self _ _ _⟩
    · -- atomic_inc
      refine ⟨regLookupD st (String.mk nmChars) + 1, .num (regLookupD st (String.mk nmChars) + 1),
        { st with atomics := setTbl st.atomics (String.mk nmChars) (regLookupD st (String.mk nmChars) + 1),
                  envs := st.envs.set st.globalsId { g with table := setTbl g.table (String.mk nmChars) (.num (regLookupD st (String.mk nmChars) + 1)) } },
        ?_, ?_, ?_⟩
      · simp [callBuiltin, strNameOf, hs, numberArg, Value.getNumD, atomicRmw,
          envAssign, envAssignAux, hg, hw]
      · exact lookupTbl_setTbl_self _ _ _
      · exact ⟨_, List.getElem?_set_eq_of_lt _ hlt, lookupTbl_setTbl_self _ _ _⟩
    · -- atomic_dec
      refine ⟨regLookupD st (String.mk nmChars) - 1, .num (regLookupD st (String.mk nmChars) - 1),
        { st with atomics := setTbl st.atomics (String.mk nmChars) (regLookupD st (String.mk nmChars) - 1),
                  envs := st.envs.set st.globalsId { g with table := setTbl g.table (String.mk nmChars) (.num (regLookupD st (String.mk nmChars) - 1)) } },
        ?_, ?_, ?_⟩
      · simp [callBuiltin, strNameOf, hs, numberArg, Value.getNumD, atomicRmw,
          envAssign, envAssignAux, hg, hw]
      · exact lookupTbl_setTbl_self _ _ _
      · exact ⟨_, List.getElem?_set_eq_of_lt _ hlt, lookupTbl_setTbl_self _ _ _⟩
    · -- atomic_xchg
      refine ⟨v, .num (regLookupD st (String.mk nmChars)),
        { st with atomics := setTbl st.atomics (String.mk nmChars) v,
                  envs := st.envs.set st.globalsId { g with table := setTbl g.table (String.mk nmChars) (.num v) } },
        ?_, ?_, ?_⟩
      · simp [callBuiltin, strNameOf, hs, numberArg, Value.getNumD,
          envAssign, envAssignAux, hg, hw]
      · exact lookupTbl_setTbl_self _ _ _
      · exact ⟨_, List.getElem?_set_eq_of_lt _ hlt, lookupTbl_setTbl_self _ _ _⟩
    · -- atomic_cas (with expected = the current register value, so it succeeds)
      refine ⟨v, .boolV true,
        { st with atomics := setTbl (setTbl st.atomics (String.mk nmChars) (regLookupD st (String.mk nmChars))) (String.mk nmChars) v,
                  envs := st.envs.set st.globalsId { g with table := setTbl g.table (String.mk nmChars) (.num v) } },
        ?_, ?_, ?_⟩
      · simp [callBuiltin, strNameOf, hs, numberArg, Value.getNumD,
          envAssign, envAssignAux, hg, hw]
      · exact lookupTbl_setTbl_self _ _ _
      · exact ⟨_, List.getElem?_set_eq_of_lt _ hlt, lookupTbl_setTbl_self _ _ _⟩

/-- Witness for the amended C3.  First: `atomic_store("x", 2)` on a state
where `x` is bound nowhere (empty global table, empty registry) creates
both the register entry and the global binding together.  Second: with
`x` bound in the global Scope, each of the seven atomic built-ins leaves
the register and the mirrored global binding holding the same value. -/
theorem atomic_mirror_amended_witness :
    (({ initSt with stringsH := [['x']] } : St).stringsH[0]? = some ['x']) ∧
    (lookupTbl (⟨none, []⟩ : EnvData).table (String.mk ['x']) = none) ∧
    (∃ st', callBuiltin 1 "atomic_store" [.str 0, .num 2] { initSt with stringsH := [['x']] }
        = (.ok .nil, st') ∧
      lookupTbl st'.atomics (String.mk ['x']) = some 2 ∧
      ∃ g', st'.envs[({ initSt with stringsH := [['x']] } : St).globalsId]? = some g' ∧
        lookupTbl g'.table (String.mk ['x']) = some (.num 2)) ∧
    (∀ op ∈ (["atomic_store", "atomic_add", "atomic_sub", "atomic_inc",
              "atomic_dec", "atomic_xchg", "atomic_cas"] : List String),
      ∃ (r : Q) (res : Value) (st' : St),
        callBuiltin 1 op
          (if op = "atomic_inc" ∨ op = "atomic_dec" then [.str 0]
           else if op = "atomic_cas" then
             [.str 0, .num (regLookupD { initSt with stringsH := [['x']], envs := [⟨none, [("x", .num 0)]⟩] } (String.mk ['x'])), .num 2]
           else [.str 0, .num 2]) { initSt with stringsH := [['x']], envs := [⟨none, [("x", .num 0)]⟩] }
          = (.ok res, st') ∧
        lookupTbl st'.atomics (String.mk ['x']) = some r ∧
        ∃ g', st'.envs[({ initSt with stringsH := [['x']], envs := [⟨none, [("x", .num 0)]⟩] } : St).globalsId]? = some g' ∧
          lookupTbl g'.table (String.mk ['x']) = some (.num r)) := by
  refine ⟨by decide, by decide, ?_, ?_⟩
  · exact (atomic_mirror_amended 1 { initSt with stringsH := [['x']] }
      0 ['x'] 2 ⟨none, []⟩ (by decide) (by decide)).1
  · exact (atomic_mirror_amended 1
      { initSt with stringsH := [['x']], envs := [⟨none, [("x", .num 0)]⟩] }
      0 ['x'] 2 ⟨none, [("x", .num 0)]⟩ (by decide) (by decide)).2 (by decide)

/-- C2 amended: the ParallelStmt rejection is driven only by the derived
(validRange, step) pair — if the Setup state recognizes no valid range
(the condition is not a BinaryExpr with `<`/`<=` whose right side
evaluates to a Number; the left side is never checked against the
induction variable) or derives step 0, the statement fails with the
UnsupportedParallelForm error, with the previous environment restored.
An unrecognized increment does not cause rejection: the step silently
defaults to 1 (see the counterexample). -/
theorem parallel_reject_amended (fuel : Nat) (initS : Option Stmt)
    (condE incrE : Option Expr) (body : Stmt) (st st3 : St) (vn : String)
    (s0 e0 stp : Q) (valid : Bool)
    (hsetup : parallelSetup fuel initS condE incrE
        { st with envs := st.envs ++ [⟨some st.envId, []⟩], envId := st.envs.length }
      = (.ok (vn, s0, e0, stp, valid), st3))
    (hinvalid : valid = false ∨ stp = 0) :
    execStmt (fuel + 1) (.parallelStmt initS condE incrE body) st
      = (.thrown (.rte "Parallel loop too complex for automatic parallelization. Use simple numeric ranges."),
         { st3 with envId := st.envId }) := by
  have hc : ¬(valid = true ∧ stp ≠ 0) := by
    rcases hinvalid with hv | hv
    · simp [hv]
    · simp [hv]
  simp only [execStmt, allocEnv]
  rw [hsetup]
  simp only [hc, if_false, reduceIte]

/-- Witness for the amended C2: a parallel header whose condition uses `+`
(not a recognized comparison) is rejected with UnsupportedParallelForm. -/
theorem parallel_reject_amended_witness :
    (parallelSetup 9 (some (.varStmt "i" (some (.literalExpr (.num 0)))))
        (some (.binaryExpr (.variableExpr "i") .plus (.literalExpr (.num 1))))
        (some (.postfixExpr "i" .plusPlus))
        { initSt with envs := initSt.envs ++ [⟨some initSt.envId, []⟩], envId := initSt.envs.length }
      = (.ok ("i", 0, 0, 1, false),
         { initSt with envs := [⟨none, []⟩, ⟨some 0, [("i", .num 0)]⟩], envId := 1 })) ∧
    (execStmt 10 (.parallelStmt (some (.varStmt "i" (some (.literalExpr (.num 0)))))
        (some (.binaryExpr (.variableExpr "i") .plus (.literalExpr (.num 1))))
        (some (.postfixExpr "i" .plusPlus))
        (.blockStmt [])) initSt
      = (.thrown (.rte "Parallel loop too complex for automatic parallelization. Use simple numeric ranges."),
         { initSt with envs := [⟨none, []⟩, ⟨some 0, [("i", .num 0)]⟩], envId := 0 })) := by
  constructor
  · rfl
  · exact parallel_reject_amended 9
      (some (.varStmt "i" (some (.literalExpr (.num 0)))))
      (some (.binaryExpr (.variableExpr "i") .plus (.literalExpr (.num 1))))
      (some (.postfixExpr "i" .plusPlus))
      (.blockStmt []) initSt
      { initSt with envs := [⟨none, []⟩, ⟨some 0, [("i", .num 0)]⟩], envId := 1 }
      "i" 0 0 1 false (by rfl) (Or.inl rfl)

/-- C2 counterexample: two Parallel statements that the claim says must
fail with UnsupportedParallelForm, yet both complete normally (silently
run through the sequential path).  First: the increment is a plain
assignment `i = i + 1` — neither postfix nor compound — but is accepted
with the step silently defaulting to 1.  Second: the condition `5 < 3`
does not compare the induction variable at all (only the operator and the
right-hand side are inspected). -/
theorem parallel_reject_counterexample :
    ((execStmt 16 (.parallelStmt (some (.varStmt "i" (some (.literalExpr (.num 0)))))
        (some (.binaryExpr (.variableExpr "i") .less (.literalExpr (.num 0))))
        (some (.assignmentExpr "i" (.binaryExpr (.variableExpr "i") .plus (.literalExpr (.num 1)))))
        (.blockStmt [])) initSt).1 = .ok ()) ∧
    ((execStmt 16 (.parallelStmt (some (.varStmt "i" (some (.literalExpr (.num 0)))))
        (some (.binaryExpr (.literalExpr (.num 5)) .less (.literalExpr (.num 3))))
        (some (.postfixExpr "i" .plusPlus))
        (.blockStmt [])) initSt).1 = .ok ()) :=
  ⟨rfl, rfl⟩

/-- The spec's aliasing program: `var a = [1,2]; var b = a; push(b, 3)`. -/
def c1prog : List Stmt :=
  [.varStmt "a" (some (.arrayExpr [.literalExpr (.num 1), .literalExpr (.num 2)])),
   .varStmt "b" (some (.variableExpr "a")),
   .exprStmt (.callExpr (.variableExpr "push") [.variableExpr "b", .literalExpr (.num 3)])]

/-- C1: Array values have shared mutable identity.  Whenever two variable
names resolve to the same Array handle, push through either name appends
to the single shared buffer, both names still resolve to that handle, and
len through the other name sees the grown length; in particular, after
the spec's program `var a = [1,2]; var b = a; push(b, 3)`, evaluating
`len(a)` yields 3. -/
theorem array_alias (fuel : Nat) (st : St) (x y : String) (hArr : Nat)
    (vs : List Value) (v : Value)
    (hx : envGet st st.envId x = .ok (.arr hArr))
    (hy : envGet st st.envId y = .ok (.arr hArr))
    (hh : st.arraysH[hArr]? = some vs) :
    (∃ st', callBuiltin fuel "push" [.arr hArr, v] st = (.ok .nil, st') ∧
      st' = { st with arraysH := st.arraysH.set hArr (vs ++ [v]) } ∧
      envGet st' st'.envId x = .ok (.arr hArr) ∧
      envGet st' st'.envId y = .ok (.arr hArr) ∧
      callBuiltin fuel "len" [.arr hArr] st' = (.ok (.num ((vs.length + 1 : Nat) : Q)), st')) ∧
    ((execProgram 12 c1prog initSt).1 = .ok ()) ∧
    ((evalExpr 8 (.callExpr (.variableExpr "len") [.variableExpr "a"])
        (execProgram 12 c1prog initSt).2).1 = .ok (.num 3)) := by
  have hlt := getElem?_lt_length hh
  have hset : (st.arraysH.set hArr (vs ++ [v]))[hArr]? = some (vs ++ [v]) :=
    List.getElem?_set_eq_of_lt _ hlt
  refine ⟨⟨{ st with arraysH := st.arraysH.set hArr (vs ++ [v]) }, ?_, rfl, hx, hy, ?_⟩, rfl, rfl⟩
  · simp [callBuiltin, hh]
  · simp [callBuiltin, hset]

/-- Witness for C1 on a concrete state where `a` and `b` are bound to the
same Array handle: the general aliasing conclusion, instantiated. -/
theorem array_alias_witness :
    (envGet { initSt with envs := [⟨none, [("a", .arr 0), ("b", .arr 0)]⟩], arraysH := [[.num 1, .num 2]] } 0 "a"
       = .ok (.arr 0)) ∧
    (∃ st', callBuiltin 1 "push" [.arr 0, .num 3]
        { initSt with envs := [⟨none, [("a", .arr 0), ("b", .arr 0)]⟩], arraysH := [[.num 1, .num 2]] }
        = (.ok .nil, st') ∧
      st' = { initSt with envs := [⟨none, [("a", .arr 0), ("b", .arr 0)]⟩], arraysH := [[.num 1, .num 2]].set 0 ([.num 1, .num 2] ++ [.num 3]) } ∧
      envGet st' st'.envId "a" = .ok (.arr 0) ∧
      envGet st' st'.envId "b" = .ok (.arr 0) ∧
      callBuiltin 1 "len" [.arr 0] st' = (.ok (.num ((2 + 1 : Nat) : Q)), st')) := by
  refine ⟨by decide, ?_⟩
  exact (array_alias 1
    { initSt with envs := [⟨none, [("a", .arr 0), ("b", .arr 0)]⟩], arraysH := [[.num 1, .num 2]] }
    "a" "b" 0 [.num 1, .num 2] (.num 3)
    (by decide) (by decide) (by decide)).1

end Bob
